import Mathlib

/-!
Verification of the GRU flight-board extraction pipeline
(`src/scrapers/gru_proximos/{data_processor,validators,config}.py`).

The Python sources are shallowly embedded below.  Strings are modelled by
Lean `String` (a wrapper around `List Char`); Python `str.upper`/`str.lower`
are modelled for the ASCII and Latin-1 ranges actually occurring in the
configuration dictionaries; Python wall-clock values (`datetime.now()`) are
made explicit parameters.  Every definition is translated from the source
file it names, keeping the source's branch structure.
-/

/-- Characters Python's `\w` (and our data) treat as word characters:
ASCII alphanumerics, underscore, and the Latin-1 letters that occur in the
Portuguese dictionaries (accented vowels, cedilla, etc.). -/
def latin1Letter (c : Char) : Bool :=
  (0xC0 ≤ c.toNat && c.toNat ≤ 0xFF && c.toNat != 0xD7 && c.toNat != 0xF7)

def isWordC (c : Char) : Bool :=
  c.isAlphanum || c == '_' || latin1Letter c

/-- Python `str.upper` restricted to ASCII plus the Latin-1 block
(`à`..`þ` map to `À`..`Þ`; `ß`/`ÿ` never occur in this repository's data). -/
def pyUpperChar (c : Char) : Char :=
  if 'a' ≤ c && c ≤ 'z' then Char.ofNat (c.toNat - 32)
  else if 0xE0 ≤ c.toNat && c.toNat ≤ 0xFE && c.toNat != 0xF7 then Char.ofNat (c.toNat - 32)
  else c

/-- Python `str.lower` restricted to ASCII plus the Latin-1 block. -/
def pyLowerChar (c : Char) : Char :=
  if 'A' ≤ c && c ≤ 'Z' then Char.ofNat (c.toNat + 32)
  else if 0xC0 ≤ c.toNat && c.toNat ≤ 0xDE && c.toNat != 0xD7 then Char.ofNat (c.toNat + 32)
  else c

def pyUpperS (s : String) : String := String.mk (s.data.map pyUpperChar)

def pyLowerS (s : String) : String := String.mk (s.data.map pyLowerChar)

/-- Python `str.strip()`: drop leading and trailing whitespace. -/
def pyStripL (l : List Char) : List Char :=
  ((l.dropWhile Char.isWhitespace).reverse.dropWhile Char.isWhitespace).reverse

def pyStrip (s : String) : String := String.mk (pyStripL s.data)

/-- `needle` is a prefix of `hay`. -/
def prefixMatch : List Char → List Char → Bool
  | [], _ => true
  | _ :: _, [] => false
  | a :: p', b :: l' => a == b && prefixMatch p' l'

/-- `needle` occurs contiguously in `hay` (Python's `needle in hay`). -/
def containsSubL (needle hay : List Char) : Bool :=
  match hay with
  | [] => needle.isEmpty
  | _ :: t => prefixMatch needle hay || containsSubL needle t

def containsSubS (hay needle : String) : Bool := containsSubL needle.data hay.data

/-- Python `text.split()` (split on whitespace runs, dropping empties). -/
def pySplitWs (l : List Char) : List String :=
  ((l.splitOnP Char.isWhitespace).map String.mk).filter (· != "")

/-- Python `" ".join(text.split())` — the parser's first cleanup step; also
equivalent to `re.sub(r'\s+', ' ', ...).strip()` used in `_parse_flight_number`. -/
def cleanText (s : String) : String :=
  String.intercalate " " (pySplitWs s.data)

/-- First-occurrence deduplication with an accumulator of already-seen
elements (model of pandas `.unique()`, `dict.fromkeys`, and — up to the
unspecified iteration order — Python `list(set(...))`). -/
def pyUniqueGo {α : Type} [BEq α] (seen : List α) : List α → List α
  | [] => []
  | a :: t => if seen.contains a then pyUniqueGo seen t else a :: pyUniqueGo (a :: seen) t

def pyUnique {α : Type} [BEq α] (l : List α) : List α := pyUniqueGo [] l

/-- Python `s.split(sep)` for a single-character separator. -/
def splitOnC (sep : Char) : List Char → List (List Char)
  | [] => [[]]
  | c :: t =>
    let r := splitOnC sep t
    if c == sep then [] :: r
    else
      match r with
      | h :: t' => (c :: h) :: t'
      | [] => [[c]]

/-- Python `int(s)` on the digit strings this pipeline produces: optional sign,
then one or more ASCII digits (leading zeros allowed).  Surrounding whitespace
and underscores, which `int` also accepts, never occur here. -/
def pyToInt (s : String) : Option Int :=
  let core (l : List Char) : Option Nat :=
    if l.isEmpty || !(l.all Char.isDigit) then none
    else some (l.foldl (fun acc c => acc * 10 + (c.toNat - '0'.toNat)) 0)
  match s.data with
  | '-' :: t => (core t).map (fun n => -(n : Int))
  | l => (core l).map (fun n => (n : Int))

/-! ## Configuration (`config.py`) -/

/-- `STATUS_ALVO` from `config.py`. -/
def STATUS_ALVO : List String :=
  ["Embarque Próximo", "Imediato Embarque", "Última Chamada",
   "Voo encerrado", "Confirmado", "Cancelado"]

/-- `COMPANHIAS_CONHECIDAS` from `config.py` (Python `set`, modelled as a list;
only membership is ever used). -/
def COMPANHIAS_CONHECIDAS : List String :=
  ["LATAM", "TAM", "GOL", "AZUL", "EMIRATES", "TURKISH", "TURKISH AIRLINES",
   "BRITISH", "BRITISH AIRWAYS", "AIR FRANCE", "AIRFRANCE", "KLM", "LUFTHANSA",
   "AMERICAN", "AMERICAN AIRLINES", "DELTA", "UNITED", "TAP", "TAP AIR PORTUGAL"]

/-- `PREFIX_TO_COMPANY` from `config.py` (dict, modelled as an association list;
Python dict lookup is exact-key). -/
def PREFIX_TO_COMPANY : List (String × String) :=
  [("TP", "TAP"), ("AD", "AZUL"), ("G3", "GOL"), ("LA", "LATAM"), ("JJ", "LATAM"),
   ("LP", "LATAM"), ("AR", "AEROLINEAS ARGENTINAS"),
   ("AA", "AMERICAN AIRLINES"), ("DL", "DELTA"), ("UA", "UNITED"),
   ("AF", "AIR FRANCE"), ("KL", "KLM"), ("LH", "LUFTHANSA"), ("LX", "SWISS"),
   ("IB", "IBERIA"), ("BA", "BRITISH AIRWAYS"), ("TK", "TURKISH AIRLINES"),
   ("QR", "QATAR AIRWAYS"), ("EK", "EMIRATES"), ("EY", "ETIHAD"),
   ("SQ", "SINGAPORE AIRLINES"),
   ("CM", "COPA"), ("AV", "AVIANCA"), ("AM", "AEROMÉXICO"),
   ("ET", "ETHIOPIAN AIRLINES"), ("WJ", "JETSMART"), ("JA", "JETSMART"),
   ("A6", "AIRFAST"), ("A", "AVIANCA"), ("B", "AZUL"), ("C", "COPA")]

/-- `NON_CITY_WORDS` from `config.py`. -/
def NON_CITY_WORDS : List String :=
  ["YOUTUBE", "INSTAGRAM", "FACEBOOK", "TWITTER", "DETALHES", "DETALHE", "VER MAIS", "AENA",
   "TERMINAL", "VOLTAR", "CIA", "SKY", "EMBARQUE", "EMBARQUE PRÓXIMO", "EMBARQUE PROXIMO",
   "VOLTAR PARA À PÁGINA INICIAL", "VOLTAR PARA A PÁGINA INICIAL", "VOLTAR PARA A PAGINA INICIAL",
   "AEROPORTO", "PÁGINA INICIAL", "PAGINA INICIAL", "INICIAL", "PÁGINA", "PAGINA", "N/A", "GRU"]

/-- `INVALID_IATA_CODES` from `config.py`. -/
def INVALID_IATA_CODES : List String :=
  ["CIA", "SKY", "API", "CSS", "HTML", "JPG", "PNG", "SVG", "TAP", "N/A"]

/-- `AIRPORT_DICT` from `config.py` (IATA code / truncated name → full city name). -/
def AIRPORT_DICT : List (String × String) :=
  [("SSA", "Salvador"), ("FOR", "Fortaleza"), ("CNF", "Belo Horizonte"), ("POA", "Porto Alegre"),
   ("REC", "Recife"), ("CWB", "Curitiba"), ("BSB", "Brasília"), ("GIG", "Rio de Janeiro (Galeão)"),
   ("SDU", "Rio de Janeiro (Santos Dumont)"), ("MAO", "Manaus"), ("NAT", "Natal"), ("MCZ", "Maceió"),
   ("VIX", "Vitória"), ("FLN", "Florianópolis"), ("BEL", "Belém"), ("SLZ", "São Luís"),
   ("CGB", "Cuiabá"), ("CGR", "Campo Grande"), ("GYN", "Goiânia"), ("PMW", "Palmas"),
   ("AJU", "Aracaju"), ("THE", "Teresina"), ("PVH", "Porto Velho"), ("BVB", "Boa Vista"),
   ("MCP", "Macapá"), ("RBR", "Rio Branco"), ("JPA", "João Pessoa"), ("PNZ", "Petrolina"),
   ("IOS", "Ilhéus"), ("BPS", "Porto Seguro"), ("LDB", "Londrina"), ("MGF", "Maringá"),
   ("NVT", "Navegantes"), ("XAP", "Chapecó"), ("RAO", "Ribeirão Preto"), ("SJP", "São José do Rio Preto"),
   ("IMP", "Imperatriz"), ("UDI", "Uberlândia"), ("Pessoa", "João Pessoa"),
   ("EZE", "Buenos Aires"), ("AEP", "Buenos Aires"), ("MIA", "Miami"), ("LHR", "Londres"),
   ("MAD", "Madrid"), ("CDG", "Paris"), ("JFK", "Nova York"), ("DXB", "Dubai"),
   ("LIS", "Lisboa"), ("FRA", "Frankfurt"), ("SCL", "Santiago"), ("BOG", "Bogotá"),
   ("Bogotá", "Bogotá"), ("Bogota", "Bogotá")]

/-- `KNOWN_CITIES` from `config.py` (order matters: the parser takes the first hit). -/
def KNOWN_CITIES : List String :=
  ["Brasília", "BSB", "Rio de Janeiro", "Galeão", "GIG", "Santos Dumont", "SDU",
   "Belo Horizonte", "CNF", "São Paulo", "CGH", "Salvador", "SSA",
   "Fortaleza", "FOR", "Recife", "REC", "Curitiba", "CWB", "Porto Alegre", "POA",
   "Manaus", "MAO", "Natal", "NAT", "Maceió", "MCZ", "Vitória", "VIX",
   "Florianópolis", "FLN", "Belém", "BEL", "São Luís", "SLZ", "Cuiabá", "CGB",
   "Campo Grande", "CGR", "Goiânia", "GYN", "Palmas", "PMW", "Aracaju", "AJU",
   "Teresina", "THE", "Porto Velho", "PVH", "Boa Vista", "BVB", "Macapá", "MCP",
   "Rio Branco", "RBR", "João Pessoa", "JPA", "Petrolina", "PNZ", "Ilhéus", "IOS",
   "Porto Seguro", "BPS", "Londrina", "LDB", "Maringá", "MGF", "Navegantes", "NVT",
   "Chapecó", "XAP", "Ribeirão Preto", "RAO", "São José do Rio Preto", "SJP",
   "Imperatriz", "IMP", "Uberlândia", "UDI",
   "Bogotá", "Bogota", "BOG", "Santiago", "SCL", "Buenos Aires", "EZE", "AEP",
   "Lima", "LIM", "Montevidéu", "MVD", "Caracas", "CCS", "Quito", "UIO",
   "Miami", "MIA", "Nova York", "JFK", "New York", "Orlando", "MCO",
   "Los Angeles", "LAX", "Toronto", "YYZ", "Cidade do México", "MEX",
   "Londres", "LHR", "Madrid", "MAD", "Paris", "CDG", "Frankfurt", "FRA",
   "Lisboa", "LIS", "Roma", "FCO", "Amsterdã", "AMS", "Zurique", "ZRH",
   "Barcelona", "BCN", "Milão", "MXP", "Munique", "MUC",
   "Dubai", "DXB", "Doha", "DOH", "Abu Dhabi", "AUH", "Istambul", "IST",
   "Tel Aviv", "TLV", "Singapura", "SIN", "Bangkok", "BKK", "Tóquio", "NRT",
   "Cidade do Panamá", "PTY", "San José", "SJO"]

/-! ## Validators (`validators.py`) -/

/-- Exact-key association-list lookup (Python `dict.get`). -/
def lookupStr (tbl : List (String × String)) (k : String) : Option String :=
  match tbl with
  | [] => none
  | (a, b) :: t => if a == k then some b else lookupStr t k

/-- `CompanyIdentifier.from_prefix` (`validators.py`): look the uppercased
flight-code letters up in `PREFIX_TO_COMPANY`. -/
def companyFromCode (vooPrefixo : String) : Option String :=
  if vooPrefixo == "" then none
  else lookupStr PREFIX_TO_COMPANY (pyUpperS vooPrefixo)

/-- `FlightValidator.is_invalid_destination_for_dedup` (`validators.py`). -/
def is_invalid_destination_for_dedup (destino : String) : Bool :=
  if destino == "" || destino == "N/A" then true
  else
    let u := pyUpperS (pyStrip destino)
    NON_CITY_WORDS.contains u || INVALID_IATA_CODES.contains u

/-- `DestinationExtractor.translate` (`validators.py`); renamed: `translate` clashes with Mathlib. -/
def destTranslate (destino : String) : String :=
  if destino == "" || destino == "N/A" then destino
  else
    let dc := pyStrip destino
    let du := pyUpperS dc
    if dc.length == 3 && (lookupStr AIRPORT_DICT du).isSome then
      (lookupStr AIRPORT_DICT du).getD dc
    else if (lookupStr AIRPORT_DICT dc).isSome then
      (lookupStr AIRPORT_DICT dc).getD dc
    else dc

/-- Domestic-city set inside `DestinationExtractor.is_domestic` (`validators.py`). -/
def domesticCities : List String :=
  ["SALVADOR", "FORTALEZA", "BELO HORIZONTE", "PORTO ALEGRE", "RECIFE",
   "CURITIBA", "BRASÍLIA", "RIO DE JANEIRO", "MANAUS", "NATAL", "MACEIÓ",
   "VITÓRIA", "FLORIANÓPOLIS", "BELÉM", "SÃO LUÍS", "CUIABÁ", "CAMPO GRANDE",
   "GOIÂNIA", "PALMAS", "ARACAJU", "TERESINA", "PORTO VELHO", "BOA VISTA",
   "MACAPÁ", "RIO BRANCO", "JOÃO PESSOA", "PETROLINA", "ILHÉUS", "PORTO SEGURO",
   "LONDRINA", "MARINGÁ", "NAVEGANTES", "CHAPECÓ", "RIBEIRÃO PRETO",
   "SÃO JOSÉ DO RIO PRETO", "IMPERATRIZ", "UBERLÂNDIA"]

/-- `DestinationExtractor.is_domestic` (`validators.py`). -/
def is_domestic (destino : String) : Bool :=
  if destino == "" || destino == "N/A" then false
  else
    let du := pyUpperS destino
    domesticCities.any (fun c => containsSubS du c) ||
      containsSubS du "RIO DE JANEIRO" ||
      (containsSubS du "RIO" && containsSubS du "JANEIRO")

/-- `CompanyIdentifier.prioritize_by_number` (`validators.py`).  `voo` is the
flight-number string (Python runs `int(voo)`, modelled by `String.toInt?`);
`companies_list` empty triggers the direct numeric-band inference. -/
def prioritize_by_number (voo : String) (companies : List String) : String :=
  match pyToInt voo with
  | none => if companies.isEmpty then "N/A" else companies.headD "N/A"
  | some n =>
    if companies.isEmpty then
      if 200 ≤ n && n ≤ 299 then "AVIANCA"
      else if 1000 ≤ n && n ≤ 1999 then "GOL"
      else if 6000 ≤ n && n ≤ 6999 then "GOL"
      else if 9000 ≤ n && n ≤ 9999 then "GOL"
      else if 2000 ≤ n && n ≤ 2999 then "AZUL"
      else if 4000 ≤ n && n ≤ 5999 then "AZUL"
      else if 8000 ≤ n && n ≤ 8899 then "AZUL"
      else if 3000 ≤ n && n ≤ 4999 then "LATAM"
      else if 7000 ≤ n && n ≤ 7999 then "LATAM"
      else if 8900 ≤ n && n ≤ 8999 then "LATAM"
      else "N/A"
    else if companies.length == 1 then companies.headD "N/A"
    else
      let rule1 :=
        if 1000 ≤ n && n ≤ 2999 then
          (["AEROLINEAS ARGENTINAS", "KLM", "AIR FRANCE", "DELTA"].find?
            (fun c => companies.contains c))
        else none
      match rule1 with
      | some c => c
      | none =>
        if 3000 ≤ n && n ≤ 4999 && companies.contains "LATAM" then "LATAM"
        else if 6000 ≤ n && n ≤ 6999 && companies.contains "GOL" then "GOL"
        else if 6000 ≤ n && n ≤ 6999 && companies.contains "DELTA" then "DELTA"
        else if 8000 ≤ n && companies.contains "LATAM" then "LATAM"
        else if 8000 ≤ n && companies.contains "KLM" then "KLM"
        else if 8000 ≤ n && companies.contains "AIR FRANCE" then "AIR FRANCE"
        else if 8000 ≤ n && companies.contains "BRITISH AIRWAYS" then "BRITISH AIRWAYS"
        else if companies.contains "DELTA" &&
                ((1000 ≤ n && n ≤ 2999) || 8000 ≤ n) then "DELTA"
        else companies.headD "N/A"

/-- `CompanyIdentifier.choose_main` (`validators.py`). -/
def choose_main (companies : List String) (destino voo vooPrefixo : String) : String :=
  if companies.isEmpty then "N/A"
  else if companies.length == 1 then companies.headD "N/A"
  else
    let byPrefixo := if vooPrefixo != "" then companyFromCode vooPrefixo else none
    match byPrefixo with
    | some c => c
    | none =>
      let dom :=
        if is_domestic destino then
          companies.find? (fun c => ["LATAM", "GOL", "AZUL"].contains c)
        else none
      match dom with
      | some c => c
      | none => prioritize_by_number voo companies

/-! ## Delay alerts (`validators.py::calculate_delay_alerts`) -/

/-- The wall clock (`datetime.now()`), made explicit: `day` counts whole days
since an arbitrary epoch and `sec` is the second-of-day.  Sub-second precision
([microseconds]) is ignored; it only shifts the instant by less than a second. -/
structure Now where
  day : Int
  sec : Int
deriving DecidableEq, Repr

/-- Result triple of `calculate_delay_alerts`: `(alerta_1h, alerta_2h, atraso_minutos)`
with the Python `"SIM"`/`"NÃO"` strings. -/
structure DelayResult where
  alerta1h : String
  alerta2h : String
  atrasoMinutos : Int
deriving DecidableEq, Repr

/-- Parse `"HH:MM"` the way `hora, minuto = map(int, s.split(':'))` followed by
`datetime.replace(hour=hora, minute=minuto)` does: exactly two `:`-separated
integer fields, with `replace` raising `ValueError` (caught by the caller)
outside `0 ≤ h ≤ 23`, `0 ≤ m ≤ 59`. -/
def parseHM (s : String) : Option (Int × Int) :=
  match ((splitOnC ':' s.data).map (fun p => pyToInt (String.mk p))) with
  | [some h, some m] =>
    if 0 ≤ h && h ≤ 23 && 0 ≤ m && m ≤ 59 then some (h, m) else none
  | _ => none

/-- The `else` branch of `calculate_delay_alerts` (no usable estimated time):
compare the scheduled instant against `now`, after the ±12 h midnight-rollover
correction, returning the delay in seconds. -/
def delayFromNowSec (now : Now) (h m : Int) : Int :=
  let previsto := now.day * 86400 + h * 3600 + m * 60
  let agora := now.day * 86400 + now.sec
  let previsto' :=
    if previsto > agora + 43200 then previsto - 86400
    else if previsto < agora - 43200 then previsto + 86400
    else previsto
  agora - previsto'

/-- `calculate_delay_alerts(horario_previsto, horario_estimado)` from
`validators.py`.  The float `atraso_minutos = total_seconds()/60` is carried
exactly as a number of seconds: the comparisons `> 60` / `> 120` minutes become
`> 3600` / `> 7200` seconds, and the final `int(atraso_minutos)` (truncation of
a positive value) becomes integer division by 60. -/
def calculate_delay_alerts (horarioPrevisto horarioEstimado : String) (now : Now) : DelayResult :=
  if horarioPrevisto == "N/A" || horarioPrevisto == "" then ⟨"NÃO", "NÃO", 0⟩
  else
    match parseHM horarioPrevisto with
    | none => ⟨"NÃO", "NÃO", 0⟩
    | some (h, m) =>
      let atrasoSec : Int :=
        if horarioEstimado != "N/A" && horarioEstimado != "" then
          match parseHM horarioEstimado with
          | some (he, me) =>
            let previsto := now.day * 86400 + h * 3600 + m * 60
            let estimado := now.day * 86400 + he * 3600 + me * 60
            let estimado' := if estimado < previsto then estimado + 86400 else estimado
            estimado' - previsto
          | none => delayFromNowSec now h m
        else delayFromNowSec now h m
      let alerta1h := if atrasoSec > 3600 then "SIM" else "NÃO"
      let alerta2h := if atrasoSec > 7200 then "SIM" else "NÃO"
      ⟨alerta1h, alerta2h, if atrasoSec > 0 then atrasoSec / 60 else 0⟩

/-! ## Regex machinery

Hand-rolled matchers for the three patterns the row parser uses
(`\b(\d{2}:\d{2})\b`, `\b([A-Z]{1,3})?\s*(\d{3,4})\b`, `Terminal\s*\d+`),
with Python `re` semantics: leftmost match, greedy quantifiers,
non-overlapping iteration for `finditer`/`findall`. -/

def upperAZ (c : Char) : Bool := 'A' ≤ c && c ≤ 'Z'

def asciiLetter (c : Char) : Bool := upperAZ c || ('a' ≤ c && c ≤ 'z')

/-- Word/non-word transition (`\b`), with the virtual non-word character at
either end of the string. -/
def boundary (prev cur : Option Char) : Bool :=
  (match prev with | none => false | some c => isWordC c) !=
  (match cur with | none => false | some c => isWordC c)

def wordHead (l : List Char) : Bool :=
  match l with | [] => false | c :: _ => isWordC c

/-- Match `\b\d{2}:\d{2}\b` at the head of `s` (`prev` is the preceding
character); returns the matched characters and the rest. -/
def timeHere (prev : Option Char) (s : List Char) : Option (List Char × List Char) :=
  match s with
  | d1 :: d2 :: c :: d3 :: d4 :: rest =>
    if d1.isDigit && d2.isDigit && c == ':' && d3.isDigit && d4.isDigit
        && boundary prev (some d1) && !(wordHead rest)
    then some ([d1, d2, ':', d3, d4], rest)
    else none
  | _ => none

/-- `re.search(r'\b(\d{2}:\d{2})\b', ...)`: leftmost match and its character
position. -/
def findTimeFirst (prev : Option Char) (pos : Nat) (s : List Char) : Option (String × Nat) :=
  match s with
  | [] => none
  | c :: t =>
    match timeHere prev s with
    | some (m, _) => some (String.mk m, pos)
    | none => findTimeFirst (some c) (pos + 1) t

/-- `re.findall(r'\b\d{2}:\d{2}\b', ...).length`: count non-overlapping
matches (fuelled recursion; the fuel `s.length + 1` is always enough because
every step consumes at least one character). -/
def countTimesGo : Nat → Option Char → List Char → Nat
  | 0, _, _ => 0
  | _ + 1, _, [] => 0
  | fuel + 1, prev, c :: t =>
    match timeHere prev (c :: t) with
    | some (m, rest) => 1 + countTimesGo fuel (some (m.getLastD ' ')) rest
    | none => countTimesGo fuel (some c) t

def countTimes (s : List Char) : Nat := countTimesGo (s.length + 1) none s

/-- The `(\d{3,4})\b` tail of the flight-number pattern, after `\s*`:
greedily try four digits, then three, each requiring a trailing boundary. -/
def digitsTake (t : List Char) : Option (List Char × List Char) :=
  match t with
  | d1 :: d2 :: d3 :: d4 :: rest =>
    if d1.isDigit && d2.isDigit && d3.isDigit && d4.isDigit && !(wordHead rest) then
      some ([d1, d2, d3, d4], rest)
    else if d1.isDigit && d2.isDigit && d3.isDigit && !(isWordC d4) then
      some ([d1, d2, d3], d4 :: rest)
    else none
  | [d1, d2, d3] =>
    if d1.isDigit && d2.isDigit && d3.isDigit then some ([d1, d2, d3], []) else none
  | _ => none

/-- `\s*` then the digit group. -/
def flightTail (t : List Char) : Option (List Char × List Char) :=
  digitsTake (t.dropWhile Char.isWhitespace)

/-- Match `\b([A-Z]{1,3})?\s*(\d{3,4})\b` at the head of `s`.  The optional
letter group is greedy (three letters tried first, then two, one, none —
Python's backtracking order); `letterP` is `upperAZ` for `extract_from_text`
and `asciiLetter` under `re.IGNORECASE` in `_parse_flight_number`.
Returns (letter group, digit group, rest). -/
def flightHere (letterP : Char → Bool) (prev : Option Char) (s : List Char) :
    Option (List Char × List Char × List Char) :=
  if !(boundary prev s.head?) then none
  else
    let l3 : Option (List Char × List Char × List Char) :=
      match s with
      | a :: b :: c :: t =>
        if letterP a && letterP b && letterP c then
          (flightTail t).map (fun m => ([a, b, c], m.1, m.2))
        else none
      | _ => none
    let l2 : Option (List Char × List Char × List Char) :=
      match s with
      | a :: b :: t =>
        if letterP a && letterP b then (flightTail t).map (fun m => ([a, b], m.1, m.2))
        else none
      | _ => none
    let l1 : Option (List Char × List Char × List Char) :=
      match s with
      | a :: t => if letterP a then (flightTail t).map (fun m => ([a], m.1, m.2)) else none
      | [] => none
    let l0 : Option (List Char × List Char × List Char) :=
      (flightTail s).map (fun m => ([], m.1, m.2))
    ((l3.orElse (fun _ => l2)).orElse (fun _ => l1)).orElse (fun _ => l0)

/-- `re.search` for the flight pattern: leftmost match with its start position. -/
def findFlightFirst (letterP : Char → Bool) (prev : Option Char) (pos : Nat)
    (s : List Char) : Option (List Char × List Char × Nat) :=
  match s with
  | [] => none
  | c :: t =>
    match flightHere letterP prev s with
    | some (p, d, _) => some (p, d, pos)
    | none => findFlightFirst letterP (some c) (pos + 1) t

/-- `re.finditer` for the flight pattern: all non-overlapping matches, each as
(letter group, digit group).  Fuelled; `s.length + 1` is always enough. -/
def findFlightAllGo (letterP : Char → Bool) : Nat → Option Char → List Char →
    List (List Char × List Char)
  | 0, _, _ => []
  | _ + 1, _, [] => []
  | fuel + 1, prev, c :: t =>
    match flightHere letterP prev (c :: t) with
    | some (p, d, rest) => (p, d) :: findFlightAllGo letterP fuel (some (d.getLastD ' ')) rest
    | none => findFlightAllGo letterP fuel (some c) t

def findFlightAll (letterP : Char → Bool) (s : List Char) : List (List Char × List Char) :=
  findFlightAllGo letterP (s.length + 1) none s

/-- Match `Terminal\s*\d+` (`re.IGNORECASE`) at the head of `s`; returns the
rest after the match. -/
def terminalHere (s : List Char) : Option (List Char) :=
  match s with
  | t1 :: t2 :: t3 :: t4 :: t5 :: t6 :: t7 :: t8 :: rest =>
    if (String.mk ([t1, t2, t3, t4, t5, t6, t7, t8].map pyLowerChar)) == "terminal" then
      let rest' := rest.dropWhile Char.isWhitespace
      let digs := rest'.takeWhile Char.isDigit
      if digs.isEmpty then none else some (rest'.drop digs.length)
    else none
  | _ => none

/-- `re.sub(r'Terminal\s*\d+', '', s, flags=re.IGNORECASE)` (fuelled scan). -/
def removeTerminalGo : Nat → List Char → List Char
  | 0, s => s
  | _ + 1, [] => []
  | fuel + 1, c :: t =>
    match terminalHere (c :: t) with
    | some rest => removeTerminalGo fuel rest
    | none => c :: removeTerminalGo fuel t

def removeTerminal (s : List Char) : List Char := removeTerminalGo (s.length + 1) s

/-! ## Row parser (`data_processor.py::extract_from_text`) -/

/-- Which guard of `extract_from_text` returned `None`.  The Python function
returns `None` in every reject case; the constructor records the branch
(spec names: `NoTimeAnchor`, `NoStatus`, `NoFlightNumber`). -/
inductive RejectReason where
  | tooShort
  | noTimeAnchor
  | noFlightNumber
  | noStatus
deriving DecidableEq, Repr

/-- The dict `extract_from_text` returns on success.  `Snapshot_Time`
(`datetime.now()` formatted) is omitted: it is a wall-clock timestamp no other
part of the pipeline reads. -/
structure ParsedFlight where
  horario : String
  voo : String
  vooCompleto : String
  companhia : String
  destino : String
  status : String
  terminal : String
deriving DecidableEq, Repr

/-- `FlightDataProcessor.extract_from_text` (`data_processor.py`), the live
row parser.  `targetStatuses` is `self.target_statuses`
(constructor default: `STATUS_ALVO`). -/
def extract_from_text (targetStatuses : List String) (text : String) :
    Except RejectReason ParsedFlight :=
  let tc := cleanText text
  if tc == "" || tc.length < 10 then .error .tooShort
  else
    match findTimeFirst none 0 tc.data with
    | none => .error .noTimeAnchor
    | some (horarioPrevisto, _) =>
      let statusEncontrado :=
        targetStatuses.find? (fun st => containsSubS (pyLowerS tc) (pyLowerS st))
      let flightMatches := findFlightAll upperAZ tc.data
      let anchorDigits := String.mk (horarioPrevisto.data.filter (fun c => c != ':'))
      let candidates := flightMatches.filter (fun m => String.mk m.2 != anchorDigits)
      match candidates.head? with
      | none => .error .noFlightNumber
      | some (p, d) =>
        let prefixo := String.mk p
        let numero := String.mk d
        let vooCompleto := if prefixo != "" then prefixo ++ numero else numero
        let destino :=
          (KNOWN_CITIES.find? (fun cid => containsSubS (pyUpperS tc) (pyUpperS cid))).getD "N/A"
        let tu := pyUpperS tc
        let companhia :=
          if containsSubS tu "AVIANCA" then "AVIANCA"
          else if containsSubS tu "LATAM" || containsSubS tu "TAM" then "LATAM"
          else if containsSubS tu "GOL" then "GOL"
          else if containsSubS tu "AZUL" then "AZUL"
          else if containsSubS tu "EMIRATES" then "EMIRATES"
          else
            let c1 := if prefixo != "" then (companyFromCode prefixo).getD "N/A" else "N/A"
            if c1 == "N/A" && d.all Char.isDigit then
              let c2 := prioritize_by_number numero []
              if c2 != "N/A" then c2 else c1
            else c1
        match statusEncontrado with
        | some st => .ok ⟨horarioPrevisto, numero, vooCompleto, companhia, destino, st, "N/A"⟩
        | none => .error .noStatus

/-- Return value of `_parse_flight_number`. -/
structure VooData where
  vooNumeros : String
  vooPrefixo : Option String
  vooCompleto : String
  vooPos : Nat
deriving DecidableEq, Repr

/-- `FlightDataProcessor._parse_flight_number` (`data_processor.py`): the
legacy helper carrying the anchor-window / cross-row guards (window
`[horario_pos - 100, horario_pos + 500]`, `distancia > 500` rejection, and the
rejection when a second `\d{2}:\d{2}` anchor lies between anchor and
candidate).  It has no caller in the repository. -/
def parse_flight_number (text : String) (horarioPos : Nat) : Option VooData :=
  let l := text.data
  let inicio := horarioPos - 100
  let fim := min l.length (horarioPos + 500)
  let snippet := (l.drop inicio).take (fim - inicio)
  let semTerminal := (cleanText (String.mk (removeTerminal snippet))).data
  match findFlightFirst asciiLetter none 0 semTerminal with
  | none => none
  | some (p, d, vooPosRel) =>
    let vooPos := inicio + vooPosRel
    let distancia := max vooPos horarioPos - min vooPos horarioPos
    if distancia > 500 then none
    else
      let crossRowOk :=
        match findTimeFirst none 0 semTerminal with
        | none => true
        | some (_, horarioPosInSnippet) =>
          let startP := min vooPosRel horarioPosInSnippet
          let endP := max vooPosRel horarioPosInSnippet
          let between := (semTerminal.drop startP).take (endP - startP)
          countTimes between ≤ 1
      if crossRowOk then
        let vooPrefixo := if p.isEmpty then none else some (pyUpperS (String.mk p))
        let numero := String.mk d
        let vooCompleto :=
          match vooPrefixo with
          | some pr => pr ++ numero
          | none => numero
        some ⟨numero, vooPrefixo, vooCompleto, vooPos⟩
      else none

/-! ## Snapshot-loop dedup (`data_processor.py::extract_from_snapshot`, ETAPA 2) -/

/-- The in-memory processing loop of `extract_from_snapshot`: parse each
captured row text, keep rows with a flight number and a status, and drop
re-renders via the `seen_flights` set keyed `f"{voo}|{horario_previsto}"`
(first seen wins).  `seen` accumulates the keys. -/
def snapshotGo (targetStatuses : List String) : List String → List String → List ParsedFlight
  | [], _ => []
  | t :: rest, seen =>
    match extract_from_text targetStatuses t with
    | .error _ => snapshotGo targetStatuses rest seen
    | .ok fd =>
      if fd.voo != "" && fd.status != "" then
        let horarioPrevisto := pyStrip fd.horario
        let voo := pyStrip fd.voo
        if voo == "" || horarioPrevisto == "" then snapshotGo targetStatuses rest seen
        else
          let key := voo ++ "|" ++ horarioPrevisto
          if seen.contains key then snapshotGo targetStatuses rest seen
          else fd :: snapshotGo targetStatuses rest (key :: seen)
      else snapshotGo targetStatuses rest seen

def extract_from_snapshot (targetStatuses : List String) (rowTexts : List String) :
    List ParsedFlight :=
  snapshotGo targetStatuses rowTexts []

/-! ## CSV pipeline (`data_processor.py::save_to_csv`)

A pandas `DataFrame` of flight rows is modelled as a `List Row` with one
`String` field per column.  The `Parceiras` column, absent until
consolidation, is modelled as the field holding `""` (the exact value
`consolidate_group` writes into a fresh column), and the internal columns
deleted inside the multi-member consolidation branch (`Voo_Completo`,
`Voo_Prefixo`, `Companhia_Imagem`) keep their first-row values — nothing
downstream of that deletion reads them, and `save_to_csv` drops those columns
from the output for every row anyway. -/

structure Row where
  databusca : String
  dataCaptura : String
  horarioPrevisto : String
  horarioEstimado : String
  voo : String
  vooCompleto : String
  vooPrefixo : String
  companhia : String
  companhiaImagem : String
  destino : String
  status : String
  alerta1H : String
  alerta2H : String
  statusMonitoramento : String
  parceiras : String
deriving DecidableEq, Repr

/-- The columns `save_to_csv` actually writes, in `column_order`. -/
structure FinalRow where
  databusca : String
  dataCaptura : String
  horarioPrevisto : String
  horarioEstimado : String
  voo : String
  companhia : String
  parceiras : String
  destino : String
  status : String
  alerta1H : String
  alerta2H : String
  statusMonitoramento : String
deriving DecidableEq, Repr

def toFinalRow (r : Row) : FinalRow :=
  ⟨r.databusca, r.dataCaptura, r.horarioPrevisto, r.horarioEstimado, r.voo,
   r.companhia, r.parceiras, r.destino, r.status, r.alerta1H, r.alerta2H,
   r.statusMonitoramento⟩

/-- Stable insertion sort (model of Python `sorted` / pandas key sorting,
which are stable; on the `Nodup` key lists it is applied to, any correct sort
agrees). -/
def insertLe {α : Type} (le : α → α → Bool) (a : α) : List α → List α
  | [] => [a]
  | b :: t => if le a b then a :: b :: t else b :: insertLe le a t

def insertionSort {α : Type} (le : α → α → Bool) : List α → List α
  | [] => []
  | a :: t => insertLe le a (insertionSort le t)

/-- Code-point-lexicographic `≤` on character lists (Python string `<=`). -/
def listLe : List Char → List Char → Bool
  | [], _ => true
  | _ :: _, [] => false
  | a :: as, b :: bs => if a == b then listLe as bs else decide (a.toNat < b.toNat)

/-- Code-point-lexicographic `<` on character lists (Python string `<`). -/
def listLt : List Char → List Char → Bool
  | [], [] => false
  | [], _ :: _ => true
  | _ :: _, [] => false
  | a :: as, b :: bs => if a == b then listLt as bs else decide (a.toNat < b.toNat)

def strLe (a b : String) : Bool := listLe a.data b.data

/-- Lexicographic order on pandas group keys (tuples of strings). -/
def pairLe (a b : String × String) : Bool :=
  if a.1 == b.1 then listLe a.2.data b.2.data else listLt a.1.data b.1.data

/-- `df.groupby([k₁, k₂], group_keys=False).apply(f).reset_index(drop=True)`:
partition the rows by key, apply `f` to each group (rows in original order),
and concatenate the results in sorted key order (pandas sorts group keys by
default). -/
def groupApply (key : Row → String × String) (f : List Row → List Row)
    (rows : List Row) : List Row :=
  (insertionSort pairLe (pyUnique (rows.map key))).flatMap
    (fun k => f (rows.filter (fun r => key r == k)))

/-- `keep_best_row` (inside `save_to_csv`): for a duplicate group keep the
first row whose destination is valid for dedup, else the first row. -/
def keep_best_row (group : List Row) : List Row :=
  if group.length == 1 then group
  else
    match group.filter (fun r => !(is_invalid_destination_for_dedup r.destino)) with
    | r :: _ => [r]
    | [] => group.take 1

/-- The deduplication step of `save_to_csv`:
`df.groupby(['Voo', 'Horario_Previsto'], ...).apply(keep_best_row)`. -/
def dedupeRows (rows : List Row) : List Row :=
  groupApply (fun r => (r.voo, r.horarioPrevisto)) keep_best_row rows

/-- `consolidate_group` (inside `consolidate_codeshare`).  Python's
`list(set(xs))` has unspecified iteration order; it is modelled as
first-occurrence dedup (`pyUnique`) — every claim proved below is
insensitive to that order or is about order-independent data (sorted
partner list, membership, sizes). -/
def consolidate_group (group : List Row) : List Row :=
  if group.length == 1 then group
  else
    match group with
    | [] => []
    | g0 :: _ =>
      let allCompaniesMain :=
        (pyUnique (group.map Row.companhia)).filter (fun c => c != "" && c != "N/A")
      let allCompaniesImages :=
        (pyUnique (group.map Row.companhiaImagem)).filter (fun c => c != "" && c != "N/A")
      let allCompanies := pyUnique (allCompaniesMain ++ allCompaniesImages)
      let allVoos := (pyUnique (group.map Row.voo)).filter (fun v => v != "" && v != "N/A")
      let allPrefixos :=
        pyUnique ((group.map (fun r => pyStrip r.vooPrefixo)).filter
          (fun p => p != "" && (companyFromCode p).isSome))
      let destino := g0.destino
      let vooPrincipal := allVoos.headD "N/A"
      let prefixoPrincipal := allPrefixos.headD ""
      let mainCompany :=
        match allPrefixos.head? with
        | some pr =>
          match companyFromCode pr with
          | some c => c
          | none => choose_main allCompanies destino vooPrincipal pr
        | none => choose_main allCompanies destino vooPrincipal ""
      let parceiras :=
        allCompanies.filter (fun c => c != mainCompany && c != "" && c != "N/A")
      let parceirasStr :=
        if parceiras.isEmpty then "" else String.intercalate ", " (insertionSort strLe parceiras)
      let vooFinal :=
        if prefixoPrincipal != "" then
          match (group.filter (fun r => r.vooPrefixo == prefixoPrincipal)).head? with
          | some r => r.voo
          | none =>
            match (group.filter (fun r => r.companhia == mainCompany)).head? with
            | some r => r.voo
            | none => vooPrincipal
        else
          match (group.filter (fun r => r.companhia == mainCompany)).head? with
          | some r => r.voo
          | none => vooPrincipal
      let horariosValidos :=
        (pyUnique (group.map Row.horarioEstimado)).filter (fun h => h != "" && h != "N/A")
      let he :=
        match horariosValidos.head? with
        | some h => h
        | none => g0.horarioEstimado
      [{ g0 with companhia := mainCompany, voo := vooFinal,
                 parceiras := parceirasStr, horarioEstimado := he }]

/-- `FlightDataProcessor.consolidate_codeshare` (`data_processor.py`):
group by (`Horario_Previsto`, `Destino`) and consolidate each group. -/
def consolidate_codeshare (rows : List Row) : List Row :=
  groupApply (fun r => (r.horarioPrevisto, r.destino)) consolidate_group rows

/-- The per-flight row-building loop of `save_to_csv` (`flights_to_save`):
the input dicts are `extract_from_text` outputs, so `Horario_Previsto`,
`Horario_Estimado`, `Voo_Prefixo` and `Companhia_Imagem` are absent and take
their `.get` defaults. -/
def processFlight (now : Now) (databusca dataCaptura : String) (flight : ParsedFlight) :
    Option Row :=
  let voo := pyStrip flight.voo
  let horarioPrevisto := pyStrip flight.horario
  if voo == "" || voo == "N/A" || horarioPrevisto == "" || horarioPrevisto == "N/A" then none
  else
    let dr := calculate_delay_alerts horarioPrevisto (pyStrip "N/A") now
    let destino0 := pyStrip flight.destino
    let destino1 := if COMPANHIAS_CONHECIDAS.contains destino0 then "N/A" else destino0
    let destino2 := destTranslate destino1
    some
      { databusca := pyStrip databusca
        dataCaptura := pyStrip dataCaptura
        horarioPrevisto := pyStrip horarioPrevisto
        horarioEstimado := pyStrip "N/A"
        voo := pyStrip voo
        vooCompleto := pyStrip flight.vooCompleto
        vooPrefixo := pyStrip ""
        companhia := pyStrip flight.companhia
        companhiaImagem := pyStrip ""
        destino := pyStrip destino2
        status := pyStrip flight.status
        alerta1H := pyStrip dr.alerta1h
        alerta2H := pyStrip dr.alerta2h
        statusMonitoramento := pyStrip "Ativo"
        parceiras := "" }

/-- The strip-every-text-column step of `save_to_csv`. -/
def stripRow (r : Row) : Row :=
  { databusca := pyStrip r.databusca
    dataCaptura := pyStrip r.dataCaptura
    horarioPrevisto := pyStrip r.horarioPrevisto
    horarioEstimado := pyStrip r.horarioEstimado
    voo := pyStrip r.voo
    vooCompleto := pyStrip r.vooCompleto
    vooPrefixo := pyStrip r.vooPrefixo
    companhia := pyStrip r.companhia
    companhiaImagem := pyStrip r.companhiaImagem
    destino := pyStrip r.destino
    status := pyStrip r.status
    alerta1H := pyStrip r.alerta1H
    alerta2H := pyStrip r.alerta2H
    statusMonitoramento := pyStrip r.statusMonitoramento
    parceiras := pyStrip r.parceiras }

/-- The `Companhia` cleanup of `save_to_csv`: keep the part before the first
`/` and strip it (the subsequent regex removing leading/trailing slashes can
no longer match), then map the truncation artefacts `N`/`n`/`nan`/`None`/``
to `N/A`. -/
def cleanCompanhia (c : String) : String :=
  let c1 := pyStrip (String.mk ((splitOnC '/' c.data).headD []))
  if ["N", "n", "nan", "None", ""].contains c1 then "N/A" else c1

/-- `FlightDataProcessor.save_to_csv` (`data_processor.py`), modelled as the
list of rows the final CSV receives (the function's side effects — file
writing, logging, the returned count — are the length of this list). -/
def save_to_csv (now : Now) (databusca dataCaptura : String)
    (scrapedFlights : List ParsedFlight) : List FinalRow :=
  let flightsToSave := scrapedFlights.filterMap (processFlight now databusca dataCaptura)
  if flightsToSave.isEmpty then []
  else
    let df1 := dedupeRows flightsToSave
    let df2 := df1.map stripRow
    let df3 := df2.map (fun r => { r with destino := destTranslate r.destino })
    let df4 := df3.map (fun r => { r with companhia := cleanCompanhia r.companhia })
    let df5 := consolidate_codeshare df4
    let df6 := df5.filter (fun r => r.companhia != "N/A")
    let df7 := df6.filter (fun r => !(is_invalid_destination_for_dedup r.destino))
    let df8 := df7.filter (fun r => !(NON_CITY_WORDS.contains (pyUpperS r.destino)))
    df8.map toFinalRow

deriving instance DecidableEq for Except

/-! ## Claim-side definitions -/

/-- Head test for the spec's anchor pattern: a `\d{1,2}:\d{2}` match exists in
a string iff some suffix starts with `digit ':' digit digit` (a two-digit-hour
match contains this one-digit form from its second character on). -/
def specAnchorHead (l : List Char) : Bool :=
  match l with
  | d :: c :: a :: b :: _ => d.isDigit && c == ':' && a.isDigit && b.isDigit
  | _ => false

/-- The spec's Step-A test: the text contains a `\d{1,2}:\d{2}` substring. -/
def specAnchorB : List Char → Bool
  | [] => false
  | c :: t => specAnchorHead (c :: t) || specAnchorB t

/-- Claim-side restatement of the dedup selection rule: the first row of the
group with a dedup-valid destination, else the first row. -/
def firstValidElseFirst (g : List Row) : List Row :=
  match g.filter (fun r => !(is_invalid_destination_for_dedup r.destino)) with
  | r :: _ => [r]
  | [] => g.take 1

/-- Rows used by the C5 theorems: same identity key, first destination
blacklisted, second valid. -/
def c5r1 : Row :=
  ⟨"db", "dt", "10:00", "N/A", "1234", "1234", "", "GOL", "", "Detalhes",
   "Confirmado", "NÃO", "NÃO", "Ativo", ""⟩

def c5r2 : Row :=
  ⟨"db", "dt", "10:00", "N/A", "1234", "1234", "", "GOL", "", "Salvador",
   "Confirmado", "NÃO", "NÃO", "Ativo", ""⟩

/-- Rows used by the C6 counterexample: one consolidation group, two distinct
non-`N/A` carriers, and a recognized prefix (`LA` → LATAM) that conflicts with
both carriers. -/
def c6r1 : Row :=
  ⟨"db", "dt", "10:00", "N/A", "1234", "LA1234", "LA", "AVIANCA", "", "Miami",
   "Confirmado", "NÃO", "NÃO", "Ativo", ""⟩

def c6r2 : Row :=
  ⟨"db", "dt", "10:00", "N/A", "2222", "2222", "", "GOL", "", "Miami",
   "Confirmado", "NÃO", "NÃO", "Ativo", ""⟩

/-- Rows used by the C6 witness: the same shape the pipeline produces
(no prefixes, no image column, distinct carriers). -/
def c6w1 : Row :=
  ⟨"db", "dt", "10:00", "N/A", "1234", "1234", "", "GOL", "", "Miami",
   "Confirmado", "NÃO", "NÃO", "Ativo", ""⟩

def c6w2 : Row :=
  ⟨"db", "dt", "10:00", "N/A", "2222", "2222", "", "AVIANCA", "", "Miami",
   "Confirmado", "NÃO", "NÃO", "Ativo", ""⟩

/-- Input used by the C3 theorems: a flight-number candidate 574 characters
after the time anchor (well beyond the 500-character window of
`_parse_flight_number`), the only candidate in the row. -/
def c3far : String :=
  "Cancelado 10:00 " ++ String.intercalate " " (List.replicate 190 "zz") ++ " 1234"

/-- The main carrier `consolidate_group` picks for a "clean" group (no prefix
column, no image column, all carriers valid): `choose_main` over the group's
carriers with the first valid flight number and no prefix. -/
def cleanMain (G : List Row) (g0 : Row) : String :=
  choose_main (G.map Row.companhia) g0.destino
    (((pyUnique (G.map Row.voo)).filter (fun v => v != "" && v != "N/A")).headD "N/A") ""

/-- The flight number `consolidate_group` picks for a clean group: the first
row of the main carrier, else the first valid flight number. -/
def cleanVoo (G : List Row) (g0 : Row) : String :=
  match (G.filter (fun r => r.companhia == cleanMain G g0)).head? with
  | some r => r.voo
  | none => ((pyUnique (G.map Row.voo)).filter (fun v => v != "" && v != "N/A")).headD "N/A"

/-- The partner string `consolidate_group` builds for a clean group with at
least one partner: the other carriers, sorted, joined with `", "`. -/
def cleanParceiras (G : List Row) (g0 : Row) : String :=
  String.intercalate ", " (insertionSort strLe
    ((G.map Row.companhia).filter (fun c => c != cleanMain G g0)))

/-- The estimated time `consolidate_group` picks: first valid estimated time
of the group, else the first row's. -/
def cleanHe (G : List Row) (g0 : Row) : String :=
  match ((pyUnique (G.map Row.horarioEstimado)).filter
      (fun h => h != "" && h != "N/A")).head? with
  | some h => h
  | none => g0.horarioEstimado

/-! ## General list and comparator lemmas -/

/-! ## General lemmas about the list machinery -/

theorem contains_true_of_mem {α : Type} [BEq α] [LawfulBEq α] {l : List α} {a : α}
    (h : a ∈ l) : l.contains a = true := List.elem_eq_true_of_mem h

theorem mem_of_contains_true {α : Type} [BEq α] [LawfulBEq α] {l : List α} {a : α}
    (h : l.contains a = true) : a ∈ l := List.mem_of_elem_eq_true h

theorem headD_mem {α : Type} (l : List α) (d : α) (hne : l ≠ []) : l.headD d ∈ l := by
  rcases l with _ | ⟨a, t⟩
  · exact absurd rfl hne
  · exact List.mem_cons_self _ _

theorem mem_pyUniqueGo {α : Type} [BEq α] [LawfulBEq α] (l : List α) :
    ∀ (seen : List α) (a : α), a ∈ pyUniqueGo seen l ↔ a ∈ l ∧ a ∉ seen := by
  induction l with
  | nil => intro seen a; simp [pyUniqueGo]
  | cons b t ih =>
    intro seen a
    unfold pyUniqueGo
    rcases hb : seen.contains b with _ | _
    · simp only [Bool.false_eq_true, if_false, List.mem_cons, ih]
      constructor
      · rintro (h | ⟨h1, h2⟩)
        · subst h
          refine ⟨Or.inl rfl, fun hc => ?_⟩
          rw [contains_true_of_mem hc] at hb
          exact absurd hb (by simp)
        · refine ⟨Or.inr h1, fun hc => h2 (Or.inr hc)⟩
      · rintro ⟨h1, h2⟩
        by_cases hab : a = b
        · exact Or.inl hab
        · rcases h1 with h | h
          · exact absurd h hab
          · exact Or.inr ⟨h, fun hc => hc.elim hab h2⟩
    · simp only [if_true, ih]
      constructor
      · rintro ⟨h1, h2⟩; exact ⟨List.mem_cons_of_mem _ h1, h2⟩
      · rintro ⟨h1, h2⟩
        rcases List.mem_cons.mp h1 with h | h
        · subst h; exact absurd (mem_of_contains_true hb) h2
        · exact ⟨h, h2⟩

theorem mem_pyUnique {α : Type} [BEq α] [LawfulBEq α] (l : List α) (a : α) :
    a ∈ pyUnique l ↔ a ∈ l := by
  simp [pyUnique, mem_pyUniqueGo]

theorem nodup_pyUniqueGo {α : Type} [BEq α] [LawfulBEq α] (l : List α) :
    ∀ seen : List α, (pyUniqueGo seen l).Nodup := by
  induction l with
  | nil => intro seen; simp [pyUniqueGo]
  | cons b t ih =>
    intro seen
    unfold pyUniqueGo
    rcases hb : seen.contains b with _ | _
    · simp only [Bool.false_eq_true, if_false]
      refine List.nodup_cons.mpr ⟨fun hmem => ?_, ih (b :: seen)⟩
      exact ((mem_pyUniqueGo t (b :: seen) b).mp hmem).2 (List.mem_cons_self _ _)
    · simp only [if_true]; exact ih seen

theorem nodup_pyUnique {α : Type} [BEq α] [LawfulBEq α] (l : List α) :
    (pyUnique l).Nodup := nodup_pyUniqueGo l []

theorem pyUniqueGo_eq_self {α : Type} [BEq α] [LawfulBEq α] (l : List α) :
    ∀ seen, l.Nodup → (∀ a ∈ l, a ∉ seen) → pyUniqueGo seen l = l := by
  induction l with
  | nil => intro seen _ _; rfl
  | cons b t ih =>
    intro seen hnd hdisj
    unfold pyUniqueGo
    have hb : seen.contains b = false := by
      rcases hc : seen.contains b with _ | _
      · rfl
      · exact absurd (mem_of_contains_true hc) (hdisj b (List.mem_cons_self _ _))
    simp only [hb, Bool.false_eq_true, if_false]
    congr 1
    refine ih (b :: seen) (List.nodup_cons.mp hnd).2 ?_
    intro a ha hc
    rcases List.mem_cons.mp hc with h | h
    · subst h; exact (List.nodup_cons.mp hnd).1 ha
    · exact hdisj a (List.mem_cons_of_mem _ ha) h

theorem pyUnique_eq_self {α : Type} [BEq α] [LawfulBEq α] (l : List α) (h : l.Nodup) :
    pyUnique l = l :=
  pyUniqueGo_eq_self l [] h (by simp)

theorem insertLe_perm {α : Type} (le : α → α → Bool) (a : α) (l : List α) :
    List.Perm (insertLe le a l) (a :: l) := by
  induction l with
  | nil => rfl
  | cons b t ih =>
    unfold insertLe
    rcases h : le a b with _ | _
    · simp only [Bool.false_eq_true, if_false]
      exact (ih.cons b).trans (List.Perm.swap a b t)
    · simp only [if_true]
      exact List.Perm.refl _

theorem insertionSort_perm {α : Type} (le : α → α → Bool) (l : List α) :
    List.Perm (insertionSort le l) l := by
  induction l with
  | nil => rfl
  | cons a t ih => exact (insertLe_perm le a (insertionSort le t)).trans (ih.cons a)

theorem listLe_total (a : List Char) : ∀ b, listLe a b = true ∨ listLe b a = true := by
  induction a with
  | nil => intro b; left; rfl
  | cons x xs ih =>
    intro b
    rcases b with _ | ⟨y, ys⟩
    · right; rfl
    · unfold listLe
      by_cases hxy : x = y
      · subst hxy
        simp only [beq_self_eq_true, if_true]
        exact ih ys
      · have h1 : (x == y) = false := beq_eq_false_iff_ne.mpr hxy
        have h2 : (y == x) = false := beq_eq_false_iff_ne.mpr (Ne.symm hxy)
        simp only [h1, h2, Bool.false_eq_true, if_false]
        have : x.toNat ≠ y.toNat := fun h =>
          hxy (Char.ofNat_toNat x ▸ Char.ofNat_toNat y ▸ congrArg Char.ofNat h)
        rcases Nat.lt_or_ge x.toNat y.toNat with h | h
        · left; simpa using h
        · right
          simp only [decide_eq_true_eq]
          omega

theorem charToNat_inj {a b : Char} (h : a.toNat = b.toNat) : a = b :=
  Char.ofNat_toNat a ▸ Char.ofNat_toNat b ▸ congrArg Char.ofNat h

theorem listLe_antisymm (a : List Char) :
    ∀ b, listLe a b = true → listLe b a = true → a = b := by
  induction a with
  | nil =>
    intro b h1 h2
    rcases b with _ | ⟨y, ys⟩
    · rfl
    · simp [listLe] at h2
  | cons x xs ih =>
    intro b h1 h2
    rcases b with _ | ⟨y, ys⟩
    · simp [listLe] at h1
    · unfold listLe at h1 h2
      by_cases hxy : x = y
      · subst hxy
        simp only [beq_self_eq_true, if_true] at h1 h2
        rw [ih ys h1 h2]
      · have e1 : (x == y) = false := beq_eq_false_iff_ne.mpr hxy
        have e2 : (y == x) = false := beq_eq_false_iff_ne.mpr (Ne.symm hxy)
        simp only [e1, e2, Bool.false_eq_true, if_false, decide_eq_true_eq] at h1 h2
        omega

theorem listLe_trans (a : List Char) :
    ∀ b c, listLe a b = true → listLe b c = true → listLe a c = true := by
  induction a with
  | nil => intro b c _ _; rfl
  | cons x xs ih =>
    intro b c h1 h2
    rcases b with _ | ⟨y, ys⟩
    · simp [listLe] at h1
    · rcases c with _ | ⟨z, zs⟩
      · simp [listLe] at h2
      · unfold listLe at h1 h2 ⊢
        by_cases hxy : x = y <;> by_cases hyz : y = z
        · subst hxy; subst hyz
          simp only [beq_self_eq_true, if_true] at h1 h2 ⊢
          exact ih ys zs h1 h2
        · subst hxy
          have e : (x == z) = false := beq_eq_false_iff_ne.mpr hyz
          simp only [beq_self_eq_true, if_true, e, Bool.false_eq_true, if_false] at h2 ⊢
          exact h2
        · subst hyz
          have e : (x == y) = false := beq_eq_false_iff_ne.mpr hxy
          simp only [e, Bool.false_eq_true, if_false, beq_self_eq_true, if_true] at h1 ⊢
          exact h1
        · have e1 : (x == y) = false := beq_eq_false_iff_ne.mpr hxy
          have e2 : (y == z) = false := beq_eq_false_iff_ne.mpr hyz
          simp only [e1, e2, Bool.false_eq_true, if_false, decide_eq_true_eq] at h1 h2
          by_cases hxz : x = z
          · subst hxz
            omega
          · have e3 : (x == z) = false := beq_eq_false_iff_ne.mpr hxz
            simp only [e3, Bool.false_eq_true, if_false, decide_eq_true_eq]
            omega

theorem listLt_asymm (a : List Char) :
    ∀ b, listLt a b = true → listLt b a = true → False := by
  induction a with
  | nil =>
    intro b h1 h2
    rcases b with _ | ⟨y, ys⟩
    · simp [listLt] at h1
    · simp [listLt] at h2
  | cons x xs ih =>
    intro b h1 h2
    rcases b with _ | ⟨y, ys⟩
    · simp [listLt] at h1
    · unfold listLt at h1 h2
      by_cases hxy : x = y
      · subst hxy
        simp only [beq_self_eq_true, if_true] at h1 h2
        exact ih ys h1 h2
      · have e1 : (x == y) = false := beq_eq_false_iff_ne.mpr hxy
        have e2 : (y == x) = false := beq_eq_false_iff_ne.mpr (Ne.symm hxy)
        simp only [e1, e2, Bool.false_eq_true, if_false, decide_eq_true_eq] at h1 h2
        omega

theorem listLt_or_le (a : List Char) :
    ∀ b, listLt a b = true ∨ listLe b a = true := by
  induction a with
  | nil =>
    intro b
    rcases b with _ | ⟨y, ys⟩
    · right; rfl
    · left; rfl
  | cons x xs ih =>
    intro b
    rcases b with _ | ⟨y, ys⟩
    · right; rfl
    · unfold listLt listLe
      by_cases hxy : x = y
      · subst hxy
        simp only [beq_self_eq_true, if_true]
        exact ih ys
      · have e1 : (x == y) = false := beq_eq_false_iff_ne.mpr hxy
        have e2 : (y == x) = false := beq_eq_false_iff_ne.mpr (Ne.symm hxy)
        simp only [e1, e2, Bool.false_eq_true, if_false, decide_eq_true_eq]
        have hne : x.toNat ≠ y.toNat := fun h => hxy (charToNat_inj h)
        omega

theorem listLt_trans (a : List Char) :
    ∀ b c, listLt a b = true → listLt b c = true → listLt a c = true := by
  induction a with
  | nil =>
    intro b c h1 h2
    rcases b with _ | ⟨y, ys⟩
    · simp [listLt] at h1
    · rcases c with _ | ⟨z, zs⟩
      · simp [listLt] at h2
      · rfl
  | cons x xs ih =>
    intro b c h1 h2
    rcases b with _ | ⟨y, ys⟩
    · simp [listLt] at h1
    · rcases c with _ | ⟨z, zs⟩
      · simp [listLt] at h2
      · unfold listLt at h1 h2 ⊢
        by_cases hxy : x = y <;> by_cases hyz : y = z
        · subst hxy; subst hyz
          simp only [beq_self_eq_true, if_true] at h1 h2 ⊢
          exact ih ys zs h1 h2
        · subst hxy
          have e : (x == z) = false := beq_eq_false_iff_ne.mpr hyz
          simp only [beq_self_eq_true, if_true, e, Bool.false_eq_true, if_false] at h2 ⊢
          exact h2
        · subst hyz
          have e : (x == y) = false := beq_eq_false_iff_ne.mpr hxy
          simp only [e, Bool.false_eq_true, if_false, beq_self_eq_true, if_true] at h1 ⊢
          exact h1
        · have e1 : (x == y) = false := beq_eq_false_iff_ne.mpr hxy
          have e2 : (y == z) = false := beq_eq_false_iff_ne.mpr hyz
          simp only [e1, e2, Bool.false_eq_true, if_false, decide_eq_true_eq] at h1 h2
          by_cases hxz : x = z
          · subst hxz; omega
          · have e3 : (x == z) = false := beq_eq_false_iff_ne.mpr hxz
            simp only [e3, Bool.false_eq_true, if_false, decide_eq_true_eq]
            omega

theorem string_ext {a b : String} (h : a.data = b.data) : a = b := by
  cases a; cases b; exact congrArg String.mk h

theorem pairLe_total (a b : String × String) : pairLe a b = true ∨ pairLe b a = true := by
  unfold pairLe
  by_cases h : a.1 = b.1
  · have e1 : (a.1 == b.1) = true := beq_iff_eq.mpr h
    have e2 : (b.1 == a.1) = true := beq_iff_eq.mpr h.symm
    simp only [e1, e2, if_true]
    exact listLe_total a.2.data b.2.data
  · have e1 : (a.1 == b.1) = false := beq_eq_false_iff_ne.mpr h
    have e2 : (b.1 == a.1) = false := beq_eq_false_iff_ne.mpr (Ne.symm h)
    simp only [e1, e2, Bool.false_eq_true, if_false]
    rcases listLt_or_le a.1.data b.1.data with h1 | h1
    · exact Or.inl h1
    · rcases listLt_or_le b.1.data a.1.data with h2 | h2
      · exact Or.inr h2
      · exact absurd (string_ext (listLe_antisymm _ _ h2 h1)) h

theorem pairLe_antisymm (a b : String × String)
    (h1 : pairLe a b = true) (h2 : pairLe b a = true) : a = b := by
  unfold pairLe at h1 h2
  by_cases h : a.1 = b.1
  · have e1 : (a.1 == b.1) = true := beq_iff_eq.mpr h
    have e2 : (b.1 == a.1) = true := beq_iff_eq.mpr h.symm
    simp only [e1, e2, if_true] at h1 h2
    have := string_ext (listLe_antisymm _ _ h1 h2)
    exact Prod.ext h this
  · have e1 : (a.1 == b.1) = false := beq_eq_false_iff_ne.mpr h
    have e2 : (b.1 == a.1) = false := beq_eq_false_iff_ne.mpr (Ne.symm h)
    simp only [e1, e2, Bool.false_eq_true, if_false] at h1 h2
    exact absurd (listLt_asymm _ _ h1 h2) (by simp)

theorem pairLe_trans (a b c : String × String)
    (h1 : pairLe a b = true) (h2 : pairLe b c = true) : pairLe a c = true := by
  unfold pairLe at h1 h2 ⊢
  by_cases hab : a.1 = b.1 <;> by_cases hbc : b.1 = c.1
  · have e1 : (a.1 == b.1) = true := beq_iff_eq.mpr hab
    have e2 : (b.1 == c.1) = true := beq_iff_eq.mpr hbc
    have e3 : (a.1 == c.1) = true := beq_iff_eq.mpr (hab.trans hbc)
    simp only [e1, e2, e3, if_true] at h1 h2 ⊢
    exact listLe_trans _ _ _ h1 h2
  · have e1 : (a.1 == b.1) = true := beq_iff_eq.mpr hab
    have e2 : (b.1 == c.1) = false := beq_eq_false_iff_ne.mpr hbc
    have e3 : (a.1 == c.1) = false := beq_eq_false_iff_ne.mpr (hab ▸ hbc)
    simp only [e1, e2, e3, if_true, Bool.false_eq_true, if_false] at h1 h2 ⊢
    exact hab ▸ h2
  · have e1 : (a.1 == b.1) = false := beq_eq_false_iff_ne.mpr hab
    have e2 : (b.1 == c.1) = true := beq_iff_eq.mpr hbc
    have e3 : (a.1 == c.1) = false := beq_eq_false_iff_ne.mpr (hbc ▸ hab)
    simp only [e1, e2, e3, Bool.false_eq_true, if_false, if_true] at h1 h2 ⊢
    exact hbc ▸ h1
  · have e1 : (a.1 == b.1) = false := beq_eq_false_iff_ne.mpr hab
    have e2 : (b.1 == c.1) = false := beq_eq_false_iff_ne.mpr hbc
    simp only [e1, e2, Bool.false_eq_true, if_false] at h1 h2
    by_cases hac : a.1 = c.1
    · exfalso
      exact listLt_asymm _ _ (hac ▸ h1) h2
    · have e3 : (a.1 == c.1) = false := beq_eq_false_iff_ne.mpr hac
      simp only [e3, Bool.false_eq_true, if_false]
      exact listLt_trans _ _ _ h1 h2

theorem mem_insertLe {α : Type} (le : α → α → Bool) (a x : α) (l : List α)
    (h : x ∈ insertLe le a l) : x = a ∨ x ∈ l :=
  List.mem_cons.mp ((List.Perm.mem_iff (insertLe_perm le a l)).mp h)

theorem pairwise_insertLe {α : Type} (le : α → α → Bool)
    (htot : ∀ a b, le a b = true ∨ le b a = true)
    (htrans : ∀ a b c, le a b = true → le b c = true → le a c = true)
    (a : α) : ∀ l : List α, l.Pairwise (fun x y => le x y = true) →
    (insertLe le a l).Pairwise (fun x y => le x y = true) := by
  intro l
  induction l with
  | nil => intro _; simp [insertLe]
  | cons b t ih =>
    intro h
    unfold insertLe
    rcases hab : le a b with _ | _
    · simp only [Bool.false_eq_true, if_false]
      have hpb := List.pairwise_cons.mp h
      refine List.pairwise_cons.mpr ⟨?_, ih hpb.2⟩
      intro x hx
      rcases mem_insertLe le a x t hx with hxa | hxt
      · rw [hxa]
        rcases htot a b with h1 | h1
        · rw [h1] at hab; exact absurd hab (by simp)
        · exact h1
      · exact hpb.1 x hxt
    · simp only [if_true]
      refine List.pairwise_cons.mpr ⟨?_, h⟩
      intro x hx
      rcases List.mem_cons.mp hx with hxa | hxt
      · rw [hxa]
        exact hab
      · exact htrans a b x hab ((List.pairwise_cons.mp h).1 x hxt)

theorem pairwise_insertionSort {α : Type} (le : α → α → Bool)
    (htot : ∀ a b, le a b = true ∨ le b a = true)
    (htrans : ∀ a b c, le a b = true → le b c = true → le a c = true)
    (l : List α) :
    (insertionSort le l).Pairwise (fun x y => le x y = true) := by
  induction l with
  | nil => simp [insertionSort]
  | cons a t ih => exact pairwise_insertLe le htot htrans a _ ih

theorem insertionSort_eq_of_perm_sorted {α : Type} (le : α → α → Bool)
    (htot : ∀ a b, le a b = true ∨ le b a = true)
    (htrans : ∀ a b c, le a b = true → le b c = true → le a c = true)
    (hanti : ∀ a b, le a b = true → le b a = true → a = b)
    (l m : List α) (hp : List.Perm l m)
    (hm : m.Pairwise (fun x y => le x y = true)) :
    insertionSort le l = m := by
  haveI : IsAntisymm α (fun x y => le x y = true) := ⟨hanti⟩
  exact List.eq_of_perm_of_sorted ((insertionSort_perm le l).trans hp)
    (pairwise_insertionSort le htot htrans l) hm

theorem flatMap_filter_nil {α β : Type} [BEq β] [LawfulBEq β]
    (keyf : α → β) (G : β → List α) (k : β) :
    ∀ ks : List β, (∀ k' ∈ ks, ∀ r ∈ G k', keyf r = k') → k ∉ ks →
    (ks.flatMap G).filter (fun r => keyf r == k) = [] := by
  intro ks
  induction ks with
  | nil => intro _ _; rfl
  | cons k' t ih =>
    intro hG hk
    rw [List.flatMap_cons, List.filter_append]
    have h1 : (G k').filter (fun r => keyf r == k) = [] := by
      apply List.filter_eq_nil_iff.mpr
      intro r hr
      have := hG k' (List.mem_cons_self _ _) r hr
      simp only [this]
      exact (Bool.not_eq_true _).mpr (beq_eq_false_iff_ne.mpr
        (fun hc => hk (hc ▸ List.mem_cons_self _ _)))
    rw [h1, List.nil_append]
    exact ih (fun k'' hk'' => hG k'' (List.mem_cons_of_mem _ hk''))
      (fun hc => hk (List.mem_cons_of_mem _ hc))

theorem flatMap_filter_single {α β : Type} [BEq β] [LawfulBEq β]
    (keyf : α → β) (G : β → List α) (k : β) :
    ∀ ks : List β, (∀ k' ∈ ks, ∀ r ∈ G k', keyf r = k') → ks.Nodup → k ∈ ks →
    (ks.flatMap G).filter (fun r => keyf r == k) = G k := by
  intro ks
  induction ks with
  | nil => intro _ _ hk; exact absurd hk (List.not_mem_nil k)
  | cons k' t ih =>
    intro hG hnd hk
    rw [List.flatMap_cons, List.filter_append]
    by_cases hkk : k' = k
    · subst hkk
      have h1 : (G k').filter (fun r => keyf r == k') = G k' := by
        apply List.filter_eq_self.mpr
        intro r hr
        exact beq_iff_eq.mpr (hG k' (List.mem_cons_self _ _) r hr)
      have h2 : (t.flatMap G).filter (fun r => keyf r == k') = [] := by
        apply flatMap_filter_nil keyf G k' t
          (fun k'' hk'' => hG k'' (List.mem_cons_of_mem _ hk''))
        exact (List.nodup_cons.mp hnd).1
      rw [h1, h2, List.append_nil]
    · have h1 : (G k').filter (fun r => keyf r == k) = [] := by
        apply List.filter_eq_nil_iff.mpr
        intro r hr
        have := hG k' (List.mem_cons_self _ _) r hr
        simp only [this]
        exact (Bool.not_eq_true _).mpr (beq_eq_false_iff_ne.mpr hkk)
      rw [h1, List.nil_append]
      refine ih (fun k'' hk'' => hG k'' (List.mem_cons_of_mem _ hk''))
        (List.nodup_cons.mp hnd).2 ?_
      rcases List.mem_cons.mp hk with h | h
      · exact absurd h.symm hkk
      · exact h

theorem keep_best_eq_selector (g : List Row) : keep_best_row g = firstValidElseFirst g := by
  unfold keep_best_row firstValidElseFirst
  rcases g with _ | ⟨r, t⟩
  · rfl
  · rcases t with _ | ⟨r2, t2⟩
    · simp only [List.length_cons, List.length_nil]
      simp only [show ((0 + 1 : Nat) == 1) = true from rfl, if_true]
      rcases hv : [r].filter (fun r => !(is_invalid_destination_for_dedup r.destino))
        with _ | ⟨x, xs⟩
      · rw [hv]
        rfl
      · have hx : x = r := by
          have hm : x ∈ [r].filter (fun r => !(is_invalid_destination_for_dedup r.destino)) := by
            rw [hv]; exact List.mem_cons_self _ _
          have := (List.mem_filter.mp hm).1
          simpa using this
        rw [hv, hx]
    · simp only [List.length_cons]
      have hc : ((t2.length + 1 + 1 : Nat) == 1) = false := beq_eq_false_iff_ne.mpr (by omega)
      simp only [hc, Bool.false_eq_true, if_false]

theorem mem_firstValid (g : List Row) (r : Row) (h : r ∈ firstValidElseFirst g) : r ∈ g := by
  unfold firstValidElseFirst at h
  split at h
  · rename_i x xs heq
    simp only [List.mem_singleton] at h
    subst h
    have : r ∈ g.filter (fun r => !(is_invalid_destination_for_dedup r.destino)) := by
      rw [heq]; exact List.mem_cons_self _ _
    exact (List.mem_filter.mp this).1
  · exact List.mem_of_mem_take h

theorem length_firstValid (g : List Row) (hne : g ≠ []) :
    (firstValidElseFirst g).length = 1 := by
  unfold firstValidElseFirst
  split
  · rfl
  · rcases g with _ | ⟨r, t⟩
    · exact absurd rfl hne
    · rfl

theorem mem_keep_best (g : List Row) (r : Row) (h : r ∈ keep_best_row g) : r ∈ g := by
  rw [keep_best_eq_selector] at h
  exact mem_firstValid g r h

theorem groupApply_filter (key : Row → String × String) (f : List Row → List Row)
    (hsub : ∀ g r, r ∈ f g → r ∈ g)
    (rows : List Row) (k : String × String)
    (hk : k ∈ rows.map key) :
    (groupApply key f rows).filter (fun r => key r == k) =
      f (rows.filter (fun r => key r == k)) := by
  unfold groupApply
  apply flatMap_filter_single key (fun k' => f (rows.filter (fun r => key r == k'))) k
  · intro k' _ r hr
    have hrg := hsub _ r hr
    exact beq_iff_eq.mp (List.mem_filter.mp hrg).2
  · exact (List.Perm.nodup_iff (insertionSort_perm pairLe _)).mpr (nodup_pyUnique _)
  · exact (List.Perm.mem_iff (insertionSort_perm pairLe _)).mpr
      ((mem_pyUnique _ _).mpr hk)

theorem prioritize_mem (v : String) (companies : List String) (hne : companies ≠ []) :
    prioritize_by_number v companies ∈ companies := by
  have hemp : companies.isEmpty = false := by
    rcases companies with _ | ⟨c, t⟩
    · exact absurd rfl hne
    · rfl
  unfold prioritize_by_number
  rcases hz : pyToInt v with _ | n
  · simp only [hemp, Bool.false_eq_true, if_false]
    exact headD_mem _ _ hne
  · simp only [hemp, Bool.false_eq_true, if_false]
    by_cases hlen : (companies.length == 1) = true
    · simp only [hlen, if_true]
      exact headD_mem _ _ hne
    · simp only [hlen, Bool.false_eq_true, if_false]
      split
      · rename_i cr heq
        split at heq
        · exact mem_of_contains_true (List.find?_some heq)
        · exact absurd heq (by simp)
      · split_ifs with h1 h2 h3 h4 h5 h6 h7 h8
        · simp only [Bool.and_eq_true] at h1
          exact mem_of_contains_true h1.2
        · simp only [Bool.and_eq_true] at h2
          exact mem_of_contains_true h2.2
        · simp only [Bool.and_eq_true] at h3
          exact mem_of_contains_true h3.2
        · simp only [Bool.and_eq_true] at h4
          exact mem_of_contains_true h4.2
        · simp only [Bool.and_eq_true] at h5
          exact mem_of_contains_true h5.2
        · simp only [Bool.and_eq_true] at h6
          exact mem_of_contains_true h6.2
        · simp only [Bool.and_eq_true] at h7
          exact mem_of_contains_true h7.2
        · simp only [Bool.and_eq_true] at h8
          exact mem_of_contains_true h8.1
        · exact headD_mem _ _ hne

theorem choose_main_mem (companies : List String) (destino voo : String)
    (hne : companies ≠ []) :
    choose_main companies destino voo "" ∈ companies := by
  have hemp : companies.isEmpty = false := by
    rcases companies with _ | ⟨c, t⟩
    · exact absurd rfl hne
    · rfl
  unfold choose_main
  simp only [hemp, Bool.false_eq_true, if_false]
  by_cases hlen : (companies.length == 1) = true
  · simp only [hlen, if_true]
    exact headD_mem _ _ hne
  · simp only [hlen, Bool.false_eq_true, if_false]
    simp only [show ("" != "") = false from rfl, Bool.false_eq_true, if_false]
    split
    · rename_i c heq
      split at heq
      · exact List.mem_of_find?_eq_some heq
      · exact absurd heq (by simp)
    · exact prioritize_mem voo companies hne

theorem timeHere_spec (prev : Option Char) (s : List Char) (m : List Char × List Char)
    (h : timeHere prev s = some m) : specAnchorB s = true := by
  unfold timeHere at h
  split at h
  · rename_i d1 d2 c d3 d4 rest
    split at h
    · rename_i hcond
      simp only [Bool.and_eq_true, beq_iff_eq] at hcond
      obtain ⟨⟨⟨⟨⟨h1, h2⟩, h3⟩, h4⟩, h5⟩, h6⟩ := hcond
      show (specAnchorHead _ || (specAnchorHead _ || specAnchorB (c :: d3 :: d4 :: rest))) = true
      apply Bool.or_eq_true_iff.mpr; right
      apply Bool.or_eq_true_iff.mpr; left
      simp [specAnchorHead, h1.2, h2, h3, h4]
    · exact absurd h (by simp)
  · exact absurd h (by simp)

theorem findTime_spec_anchor (s : List Char) :
    ∀ prev pos x, findTimeFirst prev pos s = some x → specAnchorB s = true := by
  induction s with
  | nil => intro prev pos x h; simp [findTimeFirst] at h
  | cons c t ih =>
    intro prev pos x h
    unfold findTimeFirst at h
    rcases heq : timeHere (prev) (c :: t) with _ | m
    · rw [heq] at h
      exact Bool.or_eq_true_iff.mpr (Or.inr (ih (some c) (pos + 1) x h))
    · exact timeHere_spec _ _ _ heq


/-! ## Partition lemmas for the dedupe/consolidate fixed point -/

theorem flatMap_congr_mem {α β : Type} (ks : List α) (f g : α → List β)
    (h : ∀ k ∈ ks, f k = g k) : ks.flatMap f = ks.flatMap g := by
  induction ks with
  | nil => rfl
  | cons k t ih =>
    rw [List.flatMap_cons, List.flatMap_cons, h k (List.mem_cons_self _ _),
      ih (fun k' hk' => h k' (List.mem_cons_of_mem _ hk'))]

theorem filter_key_single {α β : Type} [BEq β] [LawfulBEq β] (key : α → β) :
    ∀ (l : List α) (r : α), (l.map key).Nodup → r ∈ l →
    l.filter (fun x => key x == key r) = [r] := by
  intro l
  induction l with
  | nil => intro r _ hr; exact absurd hr (List.not_mem_nil r)
  | cons a t ih =>
    intro r hnd hr
    have hnd' : (∀ x ∈ t, ¬ key x = key a) ∧ (t.map key).Nodup := by simpa using hnd
    rcases List.mem_cons.mp hr with h | h
    · subst h
      rw [List.filter_cons]
      simp only [beq_self_eq_true, if_true]
      congr 1
      apply List.filter_eq_nil_iff.mpr
      intro x hx hkey
      exact hnd'.1 x hx (beq_iff_eq.mp hkey)
    · have hne : (key a == key r) = false := by
        refine beq_eq_false_iff_ne.mpr (fun hc => ?_)
        exact hnd'.1 r h hc.symm
      rw [List.filter_cons]
      simp only [hne, Bool.false_eq_true, if_false]
      exact ih r hnd'.2 h

theorem map_key_flatMap {α β : Type} (keyOf : α → β) (f : β → List α) :
    ∀ ks : List β, (∀ k ∈ ks, (f k).map keyOf = [k]) →
    (ks.flatMap f).map keyOf = ks := by
  intro ks
  induction ks with
  | nil => intro _; rfl
  | cons k t ih =>
    intro h
    rw [List.flatMap_cons, List.map_append, h k (List.mem_cons_self _ _),
      ih (fun k' hk' => h k' (List.mem_cons_of_mem _ hk'))]
    rfl

theorem partition_perm {α β : Type} [BEq β] [LawfulBEq β] (key : α → β) :
    ∀ (ks : List β) (l : List α), ks.Nodup → (∀ r ∈ l, key r ∈ ks) →
    List.Perm (ks.flatMap (fun k => l.filter (fun r => key r == k))) l := by
  intro ks
  induction ks with
  | nil =>
    intro l _ hall
    have hl : l = [] := by
      rcases l with _ | ⟨r, t⟩
      · rfl
      · exact absurd (hall r (List.mem_cons_self _ _)) (List.not_mem_nil _)
    subst hl
    rfl
  | cons k t ih =>
    intro l hnd hall
    rw [List.flatMap_cons]
    have htail : t.flatMap (fun k' => l.filter (fun r => key r == k')) =
        t.flatMap (fun k' => (l.filter (fun r => !(key r == k))).filter
          (fun r => key r == k')) := by
      refine (flatMap_congr_mem t _ _ (fun k' hk' => ?_))
      rw [List.filter_filter]
      refine List.filter_congr (fun r _ => ?_)
      rcases hkr : key r == k' with _ | _
      · rfl
      · have hrk : (key r == k) = false := by
          refine beq_eq_false_iff_ne.mpr (fun hc => ?_)
          have hk'k : k' ≠ k := fun hc2 => (List.nodup_cons.mp hnd).1 (hc2 ▸ hk')
          exact hk'k (by rw [← beq_iff_eq.mp hkr, hc])
        simp [hrk]
    rw [htail]
    have hperm := ih (l.filter (fun r => !(key r == k))) (List.nodup_cons.mp hnd).2
      (fun r hr => by
        have hmem := List.mem_filter.mp hr
        have := hall r hmem.1
        rcases List.mem_cons.mp this with h | h
        · exact absurd (beq_iff_eq.mpr h) (by simpa using hmem.2)
        · exact h)
    exact (List.Perm.append_left _ hperm).trans
      (List.filter_append_perm (fun r => key r == k) l)

theorem partition_eq {α β : Type} [BEq β] [LawfulBEq β] (key : α → β) :
    ∀ l : List α, (l.map key).Nodup →
    (l.map key).flatMap (fun k => l.filter (fun r => key r == k)) = l := by
  intro l
  induction l with
  | nil => intro _; rfl
  | cons r t ih =>
    intro hnd
    rw [List.map_cons, List.flatMap_cons]
    have hnd' : (∀ x ∈ t, ¬ key x = key r) ∧ (t.map key).Nodup := by simpa using hnd
    have h1 : (r :: t).filter (fun x => key x == key r) = [r] :=
      filter_key_single key (r :: t) r hnd (List.mem_cons_self _ _)
    rw [h1]
    have h2 : (List.map key t).flatMap (fun k => (r :: t).filter (fun x => key x == k)) =
        (List.map key t).flatMap (fun k => t.filter (fun x => key x == k)) := by
      refine flatMap_congr_mem _ _ _ (fun k hk => ?_)
      rw [List.filter_cons]
      have hf : (key r == k) = false := by
        refine beq_eq_false_iff_ne.mpr (fun hc => ?_)
        obtain ⟨x, hx, hkx⟩ := List.mem_map.mp hk
        exact hnd'.1 x hx (hkx.trans hc.symm)
      simp only [hf, Bool.false_eq_true, if_false]
    rw [h2, ih hnd'.2]
    rfl

theorem keep_best_row_singleton (r : Row) : keep_best_row [r] = [r] := rfl

theorem consolidate_group_singleton (r : Row) : consolidate_group [r] = [r] := rfl

theorem mem_sortKeys {l : List (String × String)} {k : String × String} :
    k ∈ insertionSort pairLe (pyUnique l) ↔ k ∈ l :=
  (List.Perm.mem_iff (insertionSort_perm pairLe _)).trans (mem_pyUnique _ _)

theorem nodup_sortKeys (l : List (String × String)) :
    (insertionSort pairLe (pyUnique l)).Nodup :=
  (List.Perm.nodup_iff (insertionSort_perm pairLe _)).mpr (nodup_pyUnique _)

theorem dedupe_keys (l : List Row) :
    (dedupeRows l).map (fun r => (r.voo, r.horarioPrevisto)) =
      insertionSort pairLe (pyUnique (l.map (fun r => (r.voo, r.horarioPrevisto)))) := by
  unfold dedupeRows groupApply
  apply map_key_flatMap
  intro k hk
  have hkmem : k ∈ l.map (fun r => (r.voo, r.horarioPrevisto)) := mem_sortKeys.mp hk
  obtain ⟨r, hr, hkey⟩ := List.mem_map.mp hkmem
  have hrf : r ∈ l.filter (fun x => ((x.voo, x.horarioPrevisto) == k)) :=
    List.mem_filter.mpr ⟨hr, beq_iff_eq.mpr hkey⟩
  rw [keep_best_eq_selector]
  have hne : l.filter (fun x => ((x.voo, x.horarioPrevisto) == k)) ≠ [] := by
    intro hnil; rw [hnil] at hrf; exact List.not_mem_nil _ hrf
  obtain ⟨x, hx⟩ := List.length_eq_one.mp (length_firstValid _ hne)
  rw [hx]
  have hxm : x ∈ l.filter (fun y => ((y.voo, y.horarioPrevisto) == k)) :=
    mem_firstValid _ x (hx ▸ List.mem_cons_self x [])
  have hkx : (x.voo, x.horarioPrevisto) = k := beq_iff_eq.mp (List.mem_filter.mp hxm).2
  simp [hkx]

theorem vooFinal_cases (G : List Row) (pp mc vp : String) :
    (if (pp != "") = true then
      match (List.filter (fun r => r.vooPrefixo == pp) G).head? with
      | some r => r.voo
      | none =>
        match (List.filter (fun r => r.companhia == mc) G).head? with
        | some r => r.voo
        | none => vp
     else
      match (List.filter (fun r => r.companhia == mc) G).head? with
      | some r => r.voo
      | none => vp) ∈ List.map Row.voo G ∨
    (if (pp != "") = true then
      match (List.filter (fun r => r.vooPrefixo == pp) G).head? with
      | some r => r.voo
      | none =>
        match (List.filter (fun r => r.companhia == mc) G).head? with
        | some r => r.voo
        | none => vp
     else
      match (List.filter (fun r => r.companhia == mc) G).head? with
      | some r => r.voo
      | none => vp) = vp := by
  split
  · rcases h1 : (List.filter (fun r => r.vooPrefixo == pp) G).head? with _ | r1
    · rw [h1]
      rcases h2 : (List.filter (fun r => r.companhia == mc) G).head? with _ | r2
      · rw [h2]; right; rfl
      · rw [h2]; left
        exact List.mem_map_of_mem Row.voo
          (List.mem_filter.mp (List.mem_of_mem_head? (Option.mem_def.mpr h2))).1
    · rw [h1]; left
      exact List.mem_map_of_mem Row.voo
        (List.mem_filter.mp (List.mem_of_mem_head? (Option.mem_def.mpr h1))).1
  · rcases h2 : (List.filter (fun r => r.companhia == mc) G).head? with _ | r2
    · rw [h2]; right; rfl
    · rw [h2]; left
      exact List.mem_map_of_mem Row.voo
        (List.mem_filter.mp (List.mem_of_mem_head? (Option.mem_def.mpr h2))).1

theorem consolidate_group_spec (g0 g1 : Row) (t' : List Row) :
    ∃ r, consolidate_group (g0 :: g1 :: t') = [r] ∧
      r.horarioPrevisto = g0.horarioPrevisto ∧ r.destino = g0.destino ∧
      (r.voo ∈ (g0 :: g1 :: t').map Row.voo ∨
        (r.voo = "N/A" ∧
          ∀ v ∈ (g0 :: g1 :: t').map Row.voo, v = "" ∨ v = "N/A")) := by
  refine ⟨_, rfl, rfl, rfl, ?_⟩
  rcases hv : List.filter (fun v => v != "" && v != "N/A")
      (pyUnique (List.map Row.voo (g0 :: g1 :: t'))) with _ | ⟨v0, vs⟩
  · refine Or.elim (vooFinal_cases (g0 :: g1 :: t') _ _ _)
      (fun h => Or.inl h) (fun h => Or.inr ⟨h, ?_⟩)
    intro v hvm
    by_contra hcon
    push_neg at hcon
    have hpred : (v != "" && v != "N/A") = true := by
      simp [bne_iff_ne, hcon.1, hcon.2]
    have hm2 : v ∈ List.filter (fun v => v != "" && v != "N/A")
        (pyUnique (List.map Row.voo (g0 :: g1 :: t'))) :=
      List.mem_filter.mpr ⟨(mem_pyUnique _ _).mpr hvm, hpred⟩
    rw [hv] at hm2
    exact List.not_mem_nil v hm2
  · refine Or.elim (vooFinal_cases (g0 :: g1 :: t') _ _ _)
      (fun h => Or.inl h) (fun h => Or.inl ?_)
    have hm0 : v0 ∈ List.filter (fun v => v != "" && v != "N/A")
        (pyUnique (List.map Row.voo (g0 :: g1 :: t'))) := by
      rw [hv]; exact List.mem_cons_self _ _
    have hmem0 : v0 ∈ List.map Row.voo (g0 :: g1 :: t') :=
      (mem_pyUnique _ _).mp (List.mem_filter.mp hm0).1
    have h2 := h.trans (rfl : ((v0 :: vs).headD "N/A" : String) = v0)
    exact h2.symm ▸ hmem0

theorem consolidate_group_key (g : List Row) (k : String × String)
    (hne : g ≠ []) (hkey : ∀ r ∈ g, (r.horarioPrevisto, r.destino) = k) :
    ∃ r, consolidate_group g = [r] ∧ (r.horarioPrevisto, r.destino) = k ∧
      (r.voo ∈ g.map Row.voo ∨
        (r.voo = "N/A" ∧ 2 ≤ g.length ∧
          ∀ v ∈ g.map Row.voo, v = "" ∨ v = "N/A")) := by
  rcases g with _ | ⟨g0, t⟩
  · exact absurd rfl hne
  rcases t with _ | ⟨g1, t'⟩
  · exact ⟨g0, consolidate_group_singleton g0,
      hkey g0 (List.mem_cons_self _ _), Or.inl (by simp)⟩
  · obtain ⟨r, hr, hh, hd, hv⟩ := consolidate_group_spec g0 g1 t'
    refine ⟨r, hr, ?_, ?_⟩
    · rw [show (r.horarioPrevisto, r.destino) = (g0.horarioPrevisto, g0.destino) by
        rw [hh, hd]]
      exact hkey g0 (List.mem_cons_self _ _)
    · rcases hv with h | ⟨h1, h2⟩
      · exact Or.inl h
      · exact Or.inr ⟨h1, by simp [List.length_cons], h2⟩

theorem consolidate_keys (l : List Row) :
    (consolidate_codeshare l).map (fun r => (r.horarioPrevisto, r.destino)) =
      insertionSort pairLe (pyUnique (l.map (fun r => (r.horarioPrevisto, r.destino)))) := by
  unfold consolidate_codeshare groupApply
  apply map_key_flatMap
  intro k hk
  have hkmem : k ∈ l.map (fun r => (r.horarioPrevisto, r.destino)) := mem_sortKeys.mp hk
  obtain ⟨r0, hr0, hkey0⟩ := List.mem_map.mp hkmem
  have hne : l.filter (fun x => ((x.horarioPrevisto, x.destino) == k)) ≠ [] := by
    intro hnil
    have : r0 ∈ l.filter (fun x => ((x.horarioPrevisto, x.destino) == k)) :=
      List.mem_filter.mpr ⟨hr0, beq_iff_eq.mpr hkey0⟩
    rw [hnil] at this
    exact List.not_mem_nil _ this
  obtain ⟨r, hr, hkr, _⟩ := consolidate_group_key
    (l.filter (fun x => ((x.horarioPrevisto, x.destino) == k))) k hne
    (fun x hx => beq_iff_eq.mp (List.mem_filter.mp hx).2)
  rw [hr]
  simp [hkr]

theorem consolidate_filter (l : List Row) (k : String × String)
    (hk : k ∈ l.map (fun r => (r.horarioPrevisto, r.destino))) :
    (consolidate_codeshare l).filter (fun r => (r.horarioPrevisto, r.destino) == k) =
      consolidate_group (l.filter (fun r => (r.horarioPrevisto, r.destino) == k)) := by
  unfold consolidate_codeshare groupApply
  apply flatMap_filter_single (fun r => (r.horarioPrevisto, r.destino))
    (fun k' => consolidate_group (l.filter (fun r => (r.horarioPrevisto, r.destino) == k')))
    k _
  · intro k' hk' r hrm
    have hkmem : k' ∈ l.map (fun r => (r.horarioPrevisto, r.destino)) := mem_sortKeys.mp hk'
    obtain ⟨r0, hr0, hkey0⟩ := List.mem_map.mp hkmem
    have hne : l.filter (fun x => ((x.horarioPrevisto, x.destino) == k')) ≠ [] := by
      intro hnil
      have : r0 ∈ l.filter (fun x => ((x.horarioPrevisto, x.destino) == k')) :=
        List.mem_filter.mpr ⟨hr0, beq_iff_eq.mpr hkey0⟩
      rw [hnil] at this
      exact List.not_mem_nil _ this
    obtain ⟨r1, hr1, hkr1, _⟩ := consolidate_group_key
      (l.filter (fun x => ((x.horarioPrevisto, x.destino) == k'))) k' hne
      (fun x hx => beq_iff_eq.mp (List.mem_filter.mp hx).2)
    rw [hr1] at hrm
    rw [List.mem_singleton.mp hrm]
    exact hkr1
  · exact nodup_sortKeys _
  · exact mem_sortKeys.mpr hk

theorem consolidate_witness (d : List Row)
    (hk1 : (d.map (fun r => (r.voo, r.horarioPrevisto))).Nodup)
    (r : Row) (hr : r ∈ consolidate_codeshare d) :
    ∃ row ∈ d, row.voo = r.voo ∧ row.horarioPrevisto = r.horarioPrevisto ∧
      row.destino = r.destino := by
  unfold consolidate_codeshare groupApply at hr
  obtain ⟨k, hkks, hrk⟩ := List.mem_flatMap.mp hr
  have hkmem : k ∈ d.map (fun r => (r.horarioPrevisto, r.destino)) := mem_sortKeys.mp hkks
  obtain ⟨r0, hr0, hkey0⟩ := List.mem_map.mp hkmem
  have hne : d.filter (fun x => ((x.horarioPrevisto, x.destino) == k)) ≠ [] := by
    intro hnil
    have : r0 ∈ d.filter (fun x => ((x.horarioPrevisto, x.destino) == k)) :=
      List.mem_filter.mpr ⟨hr0, beq_iff_eq.mpr hkey0⟩
    rw [hnil] at this
    exact List.not_mem_nil _ this
  obtain ⟨rr, hrr, hkrr, hvoo⟩ := consolidate_group_key
    (d.filter (fun x => ((x.horarioPrevisto, x.destino) == k))) k hne
    (fun x hx => beq_iff_eq.mp (List.mem_filter.mp hx).2)
  rw [hrr] at hrk
  have hreq : r = rr := List.mem_singleton.mp hrk
  subst hreq
  have hrk2 : r.horarioPrevisto = k.1 ∧ r.destino = k.2 := by
    constructor
    · exact congrArg Prod.fst hkrr
    · exact congrArg Prod.snd hkrr
  rcases hvoo with h | ⟨hna, hlen2, hall⟩
  · obtain ⟨row, hrowG, hroweq⟩ := List.mem_map.mp h
    have hrowd := List.mem_filter.mp hrowG
    have hrowk : row.horarioPrevisto = k.1 ∧ row.destino = k.2 := by
      have := beq_iff_eq.mp hrowd.2
      exact ⟨congrArg Prod.fst this, congrArg Prod.snd this⟩
    exact ⟨row, hrowd.1, hroweq,
      hrowk.1.trans hrk2.1.symm, hrowk.2.trans hrk2.2.symm⟩
  · -- the group has two rows with distinct flight numbers, all in {"", "N/A"}
    have hsub : ((d.filter (fun x => ((x.horarioPrevisto, x.destino) == k))).map
        (fun r => (r.voo, r.horarioPrevisto))).Nodup :=
      ((List.filter_sublist d).map (fun r => (r.voo, r.horarioPrevisto))).nodup hk1
    rcases hG : d.filter (fun x => ((x.horarioPrevisto, x.destino) == k)) with _ | ⟨x, t⟩
    · rw [hG] at hne; exact absurd rfl hne
    rcases t with _ | ⟨y, t2⟩
    · rw [hG] at hlen2; simp at hlen2
    have hxG : x ∈ d.filter (fun x => ((x.horarioPrevisto, x.destino) == k)) := by
      rw [hG]; exact List.mem_cons_self _ _
    have hyG : y ∈ d.filter (fun x => ((x.horarioPrevisto, x.destino) == k)) := by
      rw [hG]; exact List.mem_cons_of_mem _ (List.mem_cons_self _ _)
    have hxk := beq_iff_eq.mp (List.mem_filter.mp hxG).2
    have hyk := beq_iff_eq.mp (List.mem_filter.mp hyG).2
    have hkey_ne : (x.voo, x.horarioPrevisto) ≠ (y.voo, y.horarioPrevisto) := by
      rw [hG] at hsub
      simp only [List.map_cons, List.nodup_cons, List.mem_cons, List.mem_map] at hsub
      exact fun hc => hsub.1 (Or.inl hc)
    have hhxy : x.horarioPrevisto = y.horarioPrevisto :=
      (congrArg Prod.fst hxk).trans (congrArg Prod.fst hyk).symm
    have hvne : x.voo ≠ y.voo := by
      intro hc
      exact hkey_ne (by rw [hc, hhxy])
    have hxv : x.voo = "" ∨ x.voo = "N/A" := by
      refine hall x.voo ?_
      rw [hG]
      exact List.mem_map_of_mem Row.voo (List.mem_cons_self _ _)
    have hyv : y.voo = "" ∨ y.voo = "N/A" := by
      refine hall y.voo ?_
      rw [hG]
      exact List.mem_map_of_mem Row.voo (List.mem_cons_of_mem _ (List.mem_cons_self _ _))
    have hwit : ∃ row ∈ d.filter (fun x => ((x.horarioPrevisto, x.destino) == k)),
        row.voo = "N/A" := by
      rcases hxv with hx1 | hx1
      · rcases hyv with hy1 | hy1
        · exact absurd (hx1.trans hy1.symm) hvne
        · exact ⟨y, hyG, hy1⟩
      · exact ⟨x, hxG, hx1⟩
    obtain ⟨row, hrowG, hrowna⟩ := hwit
    have hrowd := List.mem_filter.mp hrowG
    have hrowk := beq_iff_eq.mp hrowd.2
    exact ⟨row, hrowd.1, hrowna.trans hna.symm,
      (congrArg Prod.fst hrowk).trans hrk2.1.symm,
      (congrArg Prod.snd hrowk).trans hrk2.2.symm⟩

theorem out_key1_nodup (rs : List Row) :
    ((consolidate_codeshare (dedupeRows rs)).map
      (fun r => (r.voo, r.horarioPrevisto))).Nodup := by
  have hd1 : ((dedupeRows rs).map (fun r => (r.voo, r.horarioPrevisto))).Nodup := by
    rw [dedupe_keys]; exact nodup_sortKeys _
  have hk2 : ((consolidate_codeshare (dedupeRows rs)).map
      (fun r => (r.horarioPrevisto, r.destino))).Nodup := by
    rw [consolidate_keys]; exact nodup_sortKeys _
  have hnn : (consolidate_codeshare (dedupeRows rs)).Nodup := List.Nodup.of_map _ hk2
  refine List.Nodup.map_on ?_ hnn
  intro x hx y hy hxy
  have hveq : x.voo = y.voo := congrArg Prod.fst hxy
  have hheq : x.horarioPrevisto = y.horarioPrevisto := congrArg Prod.snd hxy
  obtain ⟨rowx, hrx, hvx, hhx, hdx⟩ := consolidate_witness _ hd1 x hx
  obtain ⟨rowy, hry, hvy, hhy, hdy⟩ := consolidate_witness _ hd1 y hy
  have hroweq : rowx = rowy := by
    refine List.inj_on_of_nodup_map hd1 hrx hry ?_
    rw [hvx, hhx, hvy, hhy, hveq, hheq]
  have hdeq : x.destino = y.destino := by
    rw [← hdx, ← hdy, hroweq]
  refine List.inj_on_of_nodup_map hk2 hx hy ?_
  rw [hheq, hdeq]

theorem consolidate_dedupe_stable (out : List Row)
    (hk1 : (out.map (fun r => (r.voo, r.horarioPrevisto))).Nodup)
    (hk2 : (out.map (fun r => (r.horarioPrevisto, r.destino))).Nodup)
    (hsorted : (out.map (fun r => (r.horarioPrevisto, r.destino))).Pairwise
      (fun a b => pairLe a b = true)) :
    consolidate_codeshare (dedupeRows out) = out := by
  have hA : dedupeRows out =
      (insertionSort pairLe (pyUnique (out.map (fun r => (r.voo, r.horarioPrevisto))))).flatMap
        (fun k => out.filter (fun r => (r.voo, r.horarioPrevisto) == k)) := by
    unfold dedupeRows groupApply
    refine flatMap_congr_mem _ _ _ (fun k hk => ?_)
    obtain ⟨r, hr, hkey⟩ := List.mem_map.mp (mem_sortKeys.mp hk)
    rw [← hkey]
    rw [filter_key_single (fun r => (r.voo, r.horarioPrevisto)) out r hk1 hr]
    exact keep_best_row_singleton r
  have hperm : List.Perm (dedupeRows out) out := by
    rw [hA]
    exact partition_perm (fun r => (r.voo, r.horarioPrevisto)) _ out (nodup_sortKeys _)
      (fun r hr => mem_sortKeys.mpr (List.mem_map_of_mem _ hr))
  have hd2k2 : ((dedupeRows out).map (fun r => (r.horarioPrevisto, r.destino))).Nodup :=
    (List.Perm.nodup_iff (hperm.map (fun r => (r.horarioPrevisto, r.destino)))).mpr hk2
  have hks2 : insertionSort pairLe
      (pyUnique ((dedupeRows out).map (fun r => (r.horarioPrevisto, r.destino)))) =
      out.map (fun r => (r.horarioPrevisto, r.destino)) := by
    rw [pyUnique_eq_self _ hd2k2]
    exact insertionSort_eq_of_perm_sorted pairLe pairLe_total pairLe_trans pairLe_antisymm
      _ _ (hperm.map (fun r => (r.horarioPrevisto, r.destino))) hsorted
  have hD : ∀ k ∈ out.map (fun r => (r.horarioPrevisto, r.destino)),
      consolidate_group ((dedupeRows out).filter
        (fun r => (r.horarioPrevisto, r.destino) == k)) =
      out.filter (fun r => (r.horarioPrevisto, r.destino) == k) := by
    intro k hk
    obtain ⟨r, hr, hkey⟩ := List.mem_map.mp hk
    rw [← hkey]
    rw [filter_key_single (fun r => (r.horarioPrevisto, r.destino)) (dedupeRows out) r hd2k2
      ((List.Perm.mem_iff hperm).mpr hr)]
    rw [filter_key_single (fun r => (r.horarioPrevisto, r.destino)) out r hk2 hr]
    exact consolidate_group_singleton r
  calc consolidate_codeshare (dedupeRows out)
      = (out.map (fun r => (r.horarioPrevisto, r.destino))).flatMap
          (fun k => consolidate_group ((dedupeRows out).filter
            (fun r => (r.horarioPrevisto, r.destino) == k))) := by
        unfold consolidate_codeshare groupApply
        rw [hks2]
    _ = (out.map (fun r => (r.horarioPrevisto, r.destino))).flatMap
          (fun k => out.filter (fun r => (r.horarioPrevisto, r.destino) == k)) :=
        flatMap_congr_mem _ _ _ hD
    _ = out := partition_eq _ out hk2

/-- Confirmed C9: the output of dedupe followed by consolidate is a fixed
point — re-running dedupe then consolidate on it returns it unchanged. -/
theorem C9_fixed_point (rows : List Row) :
    consolidate_codeshare (dedupeRows (consolidate_codeshare (dedupeRows rows))) =
      consolidate_codeshare (dedupeRows rows) := by
  refine consolidate_dedupe_stable _ (out_key1_nodup rows) ?_ ?_
  · rw [consolidate_keys]
    exact nodup_sortKeys _
  · rw [consolidate_keys]
    exact pairwise_insertionSort pairLe pairLe_total pairLe_trans _

theorem flatMap_length_le {α β : Type} (ks : List β) (f g : β → List α)
    (h : ∀ k ∈ ks, (f k).length ≤ (g k).length) :
    (ks.flatMap f).length ≤ (ks.flatMap g).length := by
  induction ks with
  | nil => exact Nat.le_refl _
  | cons k t ih =>
    rw [List.flatMap_cons, List.flatMap_cons, List.length_append, List.length_append]
    exact Nat.add_le_add (h k (List.mem_cons_self _ _))
      (ih (fun k' hk' => h k' (List.mem_cons_of_mem _ hk')))

theorem consolidate_length_le (rows : List Row) :
    (consolidate_codeshare rows).length ≤ rows.length := by
  have h2 : ((insertionSort pairLe
      (pyUnique (rows.map (fun r => (r.horarioPrevisto, r.destino))))).flatMap
        (fun k => rows.filter (fun r => (r.horarioPrevisto, r.destino) == k))).length =
      rows.length :=
    (partition_perm (fun r => (r.horarioPrevisto, r.destino)) _ rows (nodup_sortKeys _)
      (fun r hr => mem_sortKeys.mpr (List.mem_map_of_mem _ hr))).length_eq
  rw [← h2]
  unfold consolidate_codeshare groupApply
  refine flatMap_length_le _ _ _ (fun k hk => ?_)
  obtain ⟨r0, hr0, hkey0⟩ := List.mem_map.mp (mem_sortKeys.mp hk)
  have hne : rows.filter (fun x => ((x.horarioPrevisto, x.destino) == k)) ≠ [] := by
    intro hnil
    have : r0 ∈ rows.filter (fun x => ((x.horarioPrevisto, x.destino) == k)) :=
      List.mem_filter.mpr ⟨hr0, beq_iff_eq.mpr hkey0⟩
    rw [hnil] at this
    exact List.not_mem_nil _ this
  obtain ⟨r, hr, _, _⟩ := consolidate_group_key
    (rows.filter (fun x => ((x.horarioPrevisto, x.destino) == k))) k hne
    (fun x hx => beq_iff_eq.mp (List.mem_filter.mp hx).2)
  rw [hr]
  rcases hG : rows.filter (fun x => ((x.horarioPrevisto, x.destino) == k)) with _ | ⟨x, t⟩
  · exact absurd hG hne
  · rw [hG]
    simp only [List.length_cons, List.length_nil]
    omega

theorem length_filter_ne {α : Type} [BEq α] [LawfulBEq α] :
    ∀ (l : List α) (a : α), l.Nodup → a ∈ l →
    (l.filter (fun c => c != a)).length = l.length - 1 := by
  intro l
  induction l with
  | nil => intro a _ ha; exact absurd ha (List.not_mem_nil a)
  | cons b t ih =>
    intro a hnd ha
    have hnd' := List.nodup_cons.mp hnd
    rcases List.mem_cons.mp ha with h | h
    · subst h
      rw [List.filter_cons]
      simp only [bne_self_eq_false, Bool.false_eq_true, if_false]
      have : t.filter (fun c => c != a) = t := by
        refine List.filter_eq_self.mpr (fun c hc => ?_)
        exact bne_iff_ne.mpr (fun hcc => hnd'.1 (hcc ▸ hc))
      rw [this]
      simp
    · have hba : (b != a) = true := bne_iff_ne.mpr (fun hc => hnd'.1 (hc ▸ h))
      rw [List.filter_cons]
      simp only [hba, if_true]
      rw [List.length_cons, ih a hnd'.2 h, List.length_cons]
      have h1 : 1 ≤ t.length := by
        rcases t with _ | ⟨x, t2⟩
        · exact absurd h (List.not_mem_nil a)
        · simp [List.length_cons]
      omega

theorem filter_partner (M : List String) (mc : String)
    (h : ∀ c ∈ M, c ≠ "" ∧ c ≠ "N/A") :
    M.filter (fun c => c != mc && c != "" && c != "N/A") =
      M.filter (fun c => c != mc) := by
  refine List.filter_congr (fun c hc => ?_)
  have h1 : (c != "") = true := bne_iff_ne.mpr (h c hc).1
  have h2 : (c != "N/A") = true := bne_iff_ne.mpr (h c hc).2
  rw [h1, h2, Bool.and_true, Bool.and_true]

theorem filter_ne_nonempty (M : List String) (mc : String)
    (hnd : M.Nodup) (hmc : mc ∈ M) (h2 : 2 ≤ M.length) :
    (M.filter (fun c => c != mc)).isEmpty = false := by
  refine List.isEmpty_eq_false.mpr (fun hnil => ?_)
  have := length_filter_ne M mc hnd hmc
  rw [hnil] at this
  simp only [List.length_nil] at this
  omega

theorem consolidate_group_clean (g0 g1 : Row) (t : List Row)
    (hpref : ∀ r ∈ g0 :: g1 :: t, r.vooPrefixo = "")
    (himg : ∀ r ∈ g0 :: g1 :: t, r.companhiaImagem = "")
    (hvalid : ∀ r ∈ g0 :: g1 :: t, r.companhia ≠ "" ∧ r.companhia ≠ "N/A")
    (hdist : ((g0 :: g1 :: t).map Row.companhia).Nodup) :
    consolidate_group (g0 :: g1 :: t) = [{ g0 with
      companhia := cleanMain (g0 :: g1 :: t) g0,
      voo := cleanVoo (g0 :: g1 :: t) g0,
      parceiras := cleanParceiras (g0 :: g1 :: t) g0,
      horarioEstimado := cleanHe (g0 :: g1 :: t) g0 }] := by
  have hlen : ((g0 :: g1 :: t).length == 1) = false := by
    simp only [List.length_cons]
    exact beq_eq_false_iff_ne.mpr (by omega)
  have E1 : (List.map (fun r => pyStrip r.vooPrefixo) (g0 :: g1 :: t)).filter
      (fun p => p != "" && (companyFromCode p).isSome) = [] := by
    refine List.filter_eq_nil_iff.mpr (fun p hp _ => ?_)
    obtain ⟨r, hr, hpr⟩ := List.mem_map.mp hp
    rw [hpref r hr] at hpr
    rename_i hcontra
    rw [← hpr] at hcontra
    simp [pyStrip, pyStripL] at hcontra
  have E2 : (pyUnique (List.map Row.companhiaImagem (g0 :: g1 :: t))).filter
      (fun c => c != "" && c != "N/A") = [] := by
    refine List.filter_eq_nil_iff.mpr (fun c hc hcontra => ?_)
    obtain ⟨r, hr, hcr⟩ := List.mem_map.mp ((mem_pyUnique _ _).mp hc)
    rw [himg r hr] at hcr
    rw [← hcr] at hcontra
    simp at hcontra
  have E3 : (pyUnique (List.map Row.companhia (g0 :: g1 :: t))).filter
      (fun c => c != "" && c != "N/A") = pyUnique (List.map Row.companhia (g0 :: g1 :: t)) := by
    refine List.filter_eq_self.mpr (fun c hc => ?_)
    obtain ⟨r, hr, hcr⟩ := List.mem_map.mp ((mem_pyUnique _ _).mp hc)
    have := hvalid r hr
    rw [← hcr]
    simp only [Bool.and_eq_true]
    exact ⟨bne_iff_ne.mpr this.1, bne_iff_ne.mpr this.2⟩
  have E4 : pyUnique (List.map Row.companhia (g0 :: g1 :: t)) =
      List.map Row.companhia (g0 :: g1 :: t) := pyUnique_eq_self _ hdist
  simp only [consolidate_group, hlen, Bool.false_eq_true, if_false]
  rw [E1]
  rw [show pyUnique ([] : List String) = [] from rfl]
  simp only [List.headD_nil, List.head?_nil, bne_self_eq_false, Bool.false_eq_true, if_false]
  rw [E2, List.append_nil, E3, pyUnique_eq_self _ (nodup_pyUnique _), E4]
  have hMvalid : ∀ c ∈ List.map Row.companhia (g0 :: g1 :: t), c ≠ "" ∧ c ≠ "N/A" := by
    intro c hc
    obtain ⟨r, hr, hcr⟩ := List.mem_map.mp hc
    exact hcr ▸ hvalid r hr
  rw [filter_partner _ _ hMvalid]
  have hMne : List.map Row.companhia (g0 :: g1 :: t) ≠ [] := by simp
  have hlen2 : 2 ≤ (List.map Row.companhia (g0 :: g1 :: t)).length := by
    simp [List.length_map, List.length_cons]
  rw [filter_ne_nonempty _ _ hdist (choose_main_mem _ _ _ hMne) hlen2]
  simp only [Bool.false_eq_true, if_false]
  simp only [cleanMain, cleanVoo, cleanParceiras, cleanHe]

/-- Amended C6: consolidate never grows the record count; and a clean group
of at least two records (no prefix or image columns, pairwise-distinct valid
carriers) collapses to one record whose carrier is one of the group's, whose
flight number is taken from a row of that chosen carrier, and whose partner
string joins the other carriers sorted — N-1 of them for N records. -/
theorem C6_amended (rows : List Row) (g0 g1 : Row) (t : List Row)
    (hpref : ∀ r ∈ g0 :: g1 :: t, r.vooPrefixo = "")
    (himg : ∀ r ∈ g0 :: g1 :: t, r.companhiaImagem = "")
    (hvalid : ∀ r ∈ g0 :: g1 :: t, r.companhia ≠ "" ∧ r.companhia ≠ "N/A")
    (hdist : ((g0 :: g1 :: t).map Row.companhia).Nodup) :
    (consolidate_codeshare rows).length ≤ rows.length ∧
    ∃ r, consolidate_group (g0 :: g1 :: t) = [r] ∧
      r.companhia ∈ (g0 :: g1 :: t).map Row.companhia ∧
      (∃ row ∈ g0 :: g1 :: t, row.companhia = r.companhia ∧ r.voo = row.voo) ∧
      r.parceiras = String.intercalate ", " (insertionSort strLe
        (((g0 :: g1 :: t).map Row.companhia).filter (fun c => c != r.companhia))) ∧
      (((g0 :: g1 :: t).map Row.companhia).filter
        (fun c => c != r.companhia)).length = (g0 :: g1 :: t).length - 1 := by
  refine ⟨consolidate_length_le rows, ?_⟩
  have hmc : cleanMain (g0 :: g1 :: t) g0 ∈ (g0 :: g1 :: t).map Row.companhia := by
    unfold cleanMain
    exact choose_main_mem _ _ _ (by simp)
  refine ⟨_, consolidate_group_clean g0 g1 t hpref himg hvalid hdist, hmc, ?_, rfl, ?_⟩
  · obtain ⟨row0, hrow0, hcrow0⟩ := List.mem_map.mp hmc
    have hne : (g0 :: g1 :: t).filter
        (fun r => r.companhia == cleanMain (g0 :: g1 :: t) g0) ≠ [] := by
      intro hnil
      have : row0 ∈ (g0 :: g1 :: t).filter
          (fun r => r.companhia == cleanMain (g0 :: g1 :: t) g0) :=
        List.mem_filter.mpr ⟨hrow0, beq_iff_eq.mpr hcrow0⟩
      rw [hnil] at this
      exact List.not_mem_nil _ this
    rcases hh : ((g0 :: g1 :: t).filter
        (fun r => r.companhia == cleanMain (g0 :: g1 :: t) g0)).head? with _ | row1
    · rw [List.head?_eq_none_iff] at hh
      exact absurd hh hne
    · have hrow1 : row1 ∈ (g0 :: g1 :: t).filter
          (fun r => r.companhia == cleanMain (g0 :: g1 :: t) g0) :=
        List.mem_of_mem_head? (Option.mem_def.mpr hh)
      refine ⟨row1, (List.mem_filter.mp hrow1).1,
        beq_iff_eq.mp (List.mem_filter.mp hrow1).2, ?_⟩
      show cleanVoo (g0 :: g1 :: t) g0 = row1.voo
      unfold cleanVoo
      rw [hh]
  · show (((g0 :: g1 :: t).map Row.companhia).filter
        (fun c => c != cleanMain (g0 :: g1 :: t) g0)).length = (g0 :: g1 :: t).length - 1
    rw [length_filter_ne _ _ hdist hmc, List.length_map]

/-- Witness for the amended C6 theorem on a concrete clean two-record group. -/
theorem C6_amended_witness :
    (consolidate_codeshare [c6w1, c6w2]).length ≤ ([c6w1, c6w2] : List Row).length ∧
    ∃ r, consolidate_group (c6w1 :: c6w2 :: []) = [r] ∧
      r.companhia ∈ (c6w1 :: c6w2 :: []).map Row.companhia ∧
      (∃ row ∈ c6w1 :: c6w2 :: [], row.companhia = r.companhia ∧ r.voo = row.voo) ∧
      r.parceiras = String.intercalate ", " (insertionSort strLe
        (((c6w1 :: c6w2 :: []).map Row.companhia).filter (fun c => c != r.companhia))) ∧
      (((c6w1 :: c6w2 :: []).map Row.companhia).filter
        (fun c => c != r.companhia)).length = (c6w1 :: c6w2 :: []).length - 1 :=
  C6_amended [c6w1, c6w2] c6w1 c6w2 []
    (by decide) (by decide) (by decide) (by decide)

/-! ## Claim theorems -/

/-- Counterexample for C4: parsing the row `"AVIANCA A6509 BOGOTA 01:25"` is rejected with `noStatus` (the row carries no target status keyword), not accepted as the claim states. -/
theorem C4_cex :
    extract_from_text STATUS_ALVO "AVIANCA A6509 BOGOTA 01:25" = .error .noStatus := by
  decide

/-- Amended C4: with a status word present, the same row parses to flight `6509`, full code `A6509` (prefix `A`, carrier AVIANCA) and destination `Bogota`. -/
theorem C4_amended :
    extract_from_text STATUS_ALVO "AVIANCA A6509 BOGOTA 01:25 Confirmado" =
      .ok ⟨"01:25", "6509", "A6509", "AVIANCA", "Bogota", "Confirmado", "N/A"⟩ := by
  decide

/-- Counterexample for C3: a flight-number candidate separated from the `10:00` anchor by a second independent anchor `11:00` is accepted by the live parser, not rejected. -/
theorem C3_cex :
    extract_from_text STATUS_ALVO "Cancelado 10:00 11:00 1234" =
      .ok ⟨"10:00", "1234", "1234", "GOL", "N/A", "Cancelado", "N/A"⟩ := by
  decide

set_option maxRecDepth 100000 in
set_option maxHeartbeats 4000000 in
/-- Amended C3: the distance and intermediate-anchor guards live only in the helper `_parse_flight_number`, which the live path never calls: the helper rejects both the intermediate-anchor row and the 574-character-distant candidate (returns `none`) while `extract_from_text` accepts both rows. -/
theorem C3_amended :
    parse_flight_number "Cancelado 10:00 11:00 1234" 10 = none ∧
    (extract_from_text STATUS_ALVO "Cancelado 10:00 11:00 1234").isOk = true ∧
    parse_flight_number c3far 10 = none ∧
    extract_from_text STATUS_ALVO c3far =
      .ok ⟨"10:00", "1234", "1234", "GOL", "N/A", "Cancelado", "N/A"⟩ := by
  exact ⟨by decide, by decide, by decide, by decide⟩

/-- Counterexample for C7: for a row naming KLM (a known carrier), the resolved carrier is GOL, inferred from the 1000-1999 number band; the literal carrier name does not win. -/
theorem C7_cex :
    extract_from_text STATUS_ALVO "KLM 1234 Cancelado 10:00" =
      .ok ⟨"10:00", "1234", "KLM1234", "GOL", "N/A", "Cancelado", "N/A"⟩ ∧
    containsSubS (pyUpperS (cleanText "KLM 1234 Cancelado 10:00")) "KLM" = true ∧
    COMPANHIAS_CONHECIDAS.contains "KLM" = true := by
  exact ⟨by decide, by decide, by decide⟩

/-- Amended C7: text sovereignty holds only for AVIANCA, the carrier the sovereignty chain checks first: every accepted row whose cleaned upper-cased text contains `"AVIANCA"` resolves to carrier AVIANCA, whatever the flight number says. -/
theorem C7_amended (tgt : List String) (t : String) (r : ParsedFlight)
    (hok : extract_from_text tgt t = .ok r)
    (hsub : containsSubS (pyUpperS (cleanText t)) "AVIANCA" = true) :
    r.companhia = "AVIANCA" := by
  unfold extract_from_text at hok
  simp only [hsub] at hok
  split at hok
  · exact absurd hok (by simp)
  · split at hok
    · exact absurd hok (by simp)
    · split at hok
      · exact absurd hok (by simp)
      · split at hok
        · simp only [if_true] at hok
          cases hok
          rfl
        · exact absurd hok (by simp)

/-- Counterexample for C8: `"9:05"` matches the spec's one-or-two-digit-hour pattern, yet the code's two-digit `HH:MM` word-bounded anchor misses it and the row is rejected with `noTimeAnchor`. -/
theorem C8_cex :
    extract_from_text STATUS_ALVO "Cancelado 9:05 voo 1234" = .error .noTimeAnchor ∧
    specAnchorB (cleanText "Cancelado 9:05 voo 1234").data = true := by
  exact ⟨by decide, by decide⟩

/-- Amended C8: for texts past the 10-character gate, `noTimeAnchor` is returned exactly when the code's two-digit-hour anchor search finds nothing; failure of the spec's wider pattern still implies rejection, and an accepted row's time is the first anchor match. -/
theorem C8_amended (tgt : List String) (t : String)
    (hlen : 10 ≤ (cleanText t).length) :
    ((extract_from_text tgt t = .error .noTimeAnchor) ↔
      findTimeFirst none 0 (cleanText t).data = none) ∧
    (specAnchorB (cleanText t).data = false →
      extract_from_text tgt t = .error .noTimeAnchor) ∧
    (∀ h p r, findTimeFirst none 0 (cleanText t).data = some (h, p) →
      extract_from_text tgt t = .ok r → r.horario = h) := by
  have hcond : (cleanText t == "" || decide ((cleanText t).length < 10)) = false := by
    have h1 : (cleanText t == "") = false := by
      rcases hb : cleanText t == "" with _ | _
      · rfl
      · have he : cleanText t = "" := beq_iff_eq.mp hb
        rw [he] at hlen
        simp [String.length] at hlen
    simp only [h1, Bool.false_or, decide_eq_false_iff_not]
    omega
  have key : ((extract_from_text tgt t = .error .noTimeAnchor) ↔
      findTimeFirst none 0 (cleanText t).data = none) ∧
      (∀ h p r, findTimeFirst none 0 (cleanText t).data = some (h, p) →
        extract_from_text tgt t = .ok r → r.horario = h) := by
    unfold extract_from_text
    simp only [hcond, Bool.false_eq_true, if_false]
    split
    · rename_i heq
      exact ⟨by simp [heq], by intro h p r hsome; rw [heq] at hsome; simp at hsome⟩
    · rename_i h0 p0 heq
      constructor
      · constructor
        · intro hre
          split at hre
          · exact absurd hre (by simp)
          · split at hre
            · exact absurd hre (by simp)
            · exact absurd hre (by simp)
        · intro hnone; rw [hnone] at heq; exact absurd heq (by simp)
      · intro h p r hsome hok
        rw [heq] at hsome
        have hh : h0 = h := by
          have := Option.some.inj hsome
          exact (Prod.mk.injEq _ _ _ _ ▸ this).1
        subst hh
        split at hok
        · exact absurd hok (by simp)
        · split at hok
          · have := Except.ok.inj hok
            rw [← this]
          · exact absurd hok (by simp)
  exact ⟨key.1, fun hspec => by
    rcases hft : findTimeFirst none 0 (cleanText t).data with _ | x
    · exact key.1.mpr hft
    · rw [findTime_spec_anchor _ _ _ _ hft] at hspec; exact absurd hspec (by simp), key.2⟩

/-- Counterexample for C2: a row whose carrier and destination both resolve to `"N/A"` parses fine, but `save_to_csv`'s final filters drop it, so the record is not kept. -/
theorem C2_cex :
    extract_from_text STATUS_ALVO "Cancelado 10:00 978" =
      .ok ⟨"10:00", "978", "978", "N/A", "N/A", "Cancelado", "N/A"⟩ ∧
    save_to_csv ⟨739000, 43200⟩ "2026-10-12 12:00:00" "2026-10-12"
      [⟨"10:00", "978", "978", "N/A", "N/A", "Cancelado", "N/A"⟩] = [] := by
  exact ⟨by decide, by decide⟩

/-- Amended C2: every row `save_to_csv` outputs has a carrier other than `"N/A"`, a destination that is valid for dedup, and a destination outside the non-city blacklist; unresolved rows are dropped, not kept. -/
theorem C2_amended (now : Now) (databusca dataCaptura : String)
    (flights : List ParsedFlight) (r : FinalRow)
    (hmem : r ∈ save_to_csv now databusca dataCaptura flights) :
    r.companhia ≠ "N/A" ∧
    is_invalid_destination_for_dedup r.destino = false ∧
    NON_CITY_WORDS.contains (pyUpperS r.destino) = false := by
  simp only [save_to_csv] at hmem
  split at hmem
  · simp at hmem
  · obtain ⟨row, hrow, hproj⟩ := List.mem_map.mp hmem
    obtain ⟨hrow7, hnc⟩ := List.mem_filter.mp hrow
    obtain ⟨hrow6, hinv⟩ := List.mem_filter.mp hrow7
    obtain ⟨_, hna⟩ := List.mem_filter.mp hrow6
    subst hproj
    refine ⟨?_, ?_, ?_⟩
    · intro hcontra
      rw [show (toFinalRow row).companhia = row.companhia from rfl] at hcontra
      simp [hcontra] at hna
    · rw [show (toFinalRow row).destino = row.destino from rfl]
      simpa using hinv
    · rw [show (toFinalRow row).destino = row.destino from rfl]
      simpa using hnc

/-- Witness for the amended C2 theorem at a concrete GOL/Salvador flight that survives the filters. -/
theorem C2_amended_witness :
    ((⟨"db", "dt", "10:00", "N/A", "1234", "GOL", "", "Salvador", "Confirmado",
       "SIM", "SIM", "Ativo"⟩ : FinalRow).companhia ≠ "N/A") ∧
    is_invalid_destination_for_dedup
      (⟨"db", "dt", "10:00", "N/A", "1234", "GOL", "", "Salvador", "Confirmado",
        "SIM", "SIM", "Ativo"⟩ : FinalRow).destino = false ∧
    NON_CITY_WORDS.contains (pyUpperS
      (⟨"db", "dt", "10:00", "N/A", "1234", "GOL", "", "Salvador", "Confirmado",
        "SIM", "SIM", "Ativo"⟩ : FinalRow).destino) = false :=
  C2_amended ⟨700, 50000⟩ "db" "dt"
    [⟨"10:00", "1234", "1234", "GOL", "Salvador", "Confirmado", "N/A"⟩] _ (by decide)

/-- Counterexample for C5: of two rows sharing the identity key, dedupe keeps the second one (the first row's destination `"Detalhes"` is dedup-invalid), not the first-seen occurrence. -/
theorem C5_cex :
    dedupeRows [c5r1, c5r2] = [c5r2] ∧ c5r2 ≠ c5r1 := by
  exact ⟨by decide, by decide⟩

/-- Amended C5: for each identity key `(Voo, Horario_Previsto)` present, dedupe's output holds exactly one row with that key: the group's first row with a dedup-valid destination, else the group's first row. -/
theorem C5_amended (rows : List Row) (k : String × String)
    (hk : k ∈ rows.map (fun r => (r.voo, r.horarioPrevisto))) :
    (dedupeRows rows).filter (fun r => (r.voo, r.horarioPrevisto) == k) =
      firstValidElseFirst (rows.filter (fun r => (r.voo, r.horarioPrevisto) == k)) ∧
    ((dedupeRows rows).filter (fun r => (r.voo, r.horarioPrevisto) == k)).length = 1 := by
  have h1 := groupApply_filter (fun r => (r.voo, r.horarioPrevisto)) keep_best_row
    mem_keep_best rows k hk
  unfold dedupeRows
  rw [h1, keep_best_eq_selector]
  refine ⟨rfl, length_firstValid _ ?_⟩
  obtain ⟨r, hr, hkey⟩ := List.mem_map.mp hk
  intro hnil
  have : r ∈ rows.filter (fun r => (r.voo, r.horarioPrevisto) == k) :=
    List.mem_filter.mpr ⟨hr, beq_iff_eq.mpr hkey⟩
  rw [hnil] at this
  exact List.not_mem_nil r this

/-- Witness for the amended C5 theorem on the concrete two-row group. -/
theorem C5_amended_witness :
    (dedupeRows [c5r1, c5r2]).filter
        (fun r => (r.voo, r.horarioPrevisto) == ("1234", "10:00")) =
      firstValidElseFirst ([c5r1, c5r2].filter
        (fun r => (r.voo, r.horarioPrevisto) == ("1234", "10:00"))) ∧
    ((dedupeRows [c5r1, c5r2]).filter
        (fun r => (r.voo, r.horarioPrevisto) == ("1234", "10:00"))).length = 1 :=
  C5_amended [c5r1, c5r2] ("1234", "10:00") (by decide)

/-- Counterexample for C6: a consolidation group of two records with two distinct carriers ends with two partner entries, not N-1 = 1, because the prefix-derived main carrier (`LA` -> LATAM) is outside the group's carriers. -/
theorem C6_cex :
    (consolidate_codeshare [c6r1, c6r2]).map Row.parceiras =
      [String.intercalate ", " ["AVIANCA", "GOL"]] ∧
    (["AVIANCA", "GOL"] : List String).length ≠
      (pyUnique ([c6r1, c6r2].map Row.companhia)).length - 1 := by
  exact ⟨by decide, by decide⟩

/-- Counterexample for C1: at a concrete clock, `calculate_delay_alerts("10:00", "11:30")` gives 90 minutes with `alerta_1h = "SIM"` but `alerta_2h = "NÃO"` (90 is not over 120), against the claimed `alert_2h = true`. -/
theorem C1_cex :
    calculate_delay_alerts "10:00" "11:30" ⟨739000, 43200⟩ = ⟨"SIM", "NÃO", 90⟩ := by
  decide

/-- Amended C1: for every clock value, the result is delay 90 minutes, `alerta_1h = "SIM"`, `alerta_2h = "NÃO"`. -/
theorem C1_amended (now : Now) :
    calculate_delay_alerts "10:00" "11:30" now = ⟨"SIM", "NÃO", 90⟩ := by
  have h1 : parseHM "10:00" = some (10, 0) := by decide
  have h2 : parseHM "11:30" = some (11, 30) := by decide
  have e1 : ("10:00" == "N/A" || "10:00" == "") = false := by decide
  have e2 : ("11:30" != "N/A" && "11:30" != "") = true := by decide
  simp only [calculate_delay_alerts, h1, h2, e1, e2, Bool.false_eq_true, if_false, if_true]
  have hlt : ¬ (now.day * 86400 + 11 * 3600 + 30 * 60 < now.day * 86400 + 10 * 3600 + 0 * 60) := by
    omega
  simp only [if_neg hlt]
  norm_num
  refine ⟨fun h => absurd h (by omega), fun h => absurd h (by omega), ?_⟩
  rw [if_pos (by omega : now.day * 86400 + 36000 < now.day * 86400 + 39600 + 1800)]
  omega

set_option maxHeartbeats 2000000 in
/-- Confirmed C10: in direct numeric-band inference (no candidate list), every flight number in 4000-4999 resolves to AZUL — the 4000-5999 AZUL band is tested before the overlapping 3000-4999 LATAM band — and LATAM covers only 3000-3999 there. -/
theorem C10_bands (s : String) (n : Int) (hs : pyToInt s = some n) :
    (4000 ≤ n → n ≤ 4999 → prioritize_by_number s [] = "AZUL") ∧
    (3000 ≤ n → n ≤ 3999 → prioritize_by_number s [] = "LATAM") := by
  simp only [prioritize_by_number, hs, List.isEmpty_nil, if_true]
  clear hs
  constructor <;> intro h1 h2 <;>
    split_ifs with h3 h4 h5 h6 h7 h8 h9 h10 h11 h12 <;>
    simp only [Bool.and_eq_true, decide_eq_true_eq] at * <;>
    first
      | rfl
      | (exfalso; omega)

/-- Witness for the C10 band theorem at flight numbers 4500 and 3500. -/
theorem C10_bands_witness :
    prioritize_by_number "4500" [] = "AZUL" ∧
    prioritize_by_number "3500" [] = "LATAM" := by
  exact ⟨(C10_bands "4500" 4500 (by decide)).1 (by decide) (by decide),
         (C10_bands "3500" 3500 (by decide)).2 (by decide) (by decide)⟩

/-- Witness for the amended C7 theorem at a concrete AVIANCA row. -/
theorem C7_amended_witness :
    (⟨"10:00", "244", "244", "AVIANCA", "N/A", "Cancelado", "N/A"⟩ : ParsedFlight).companhia =
      "AVIANCA" :=
  C7_amended STATUS_ALVO "AVIANCA 244 Cancelado 10:00"
    ⟨"10:00", "244", "244", "AVIANCA", "N/A", "Cancelado", "N/A"⟩ (by decide) (by decide)

/-- Witness for the amended C8 theorem at a concrete row with a `10:00` anchor. -/
theorem C8_amended_witness :
    ((extract_from_text STATUS_ALVO "Cancelado 10:00 voo 1234" = .error .noTimeAnchor) ↔
      findTimeFirst none 0 (cleanText "Cancelado 10:00 voo 1234").data = none) ∧
    (specAnchorB (cleanText "Cancelado 10:00 voo 1234").data = false →
      extract_from_text STATUS_ALVO "Cancelado 10:00 voo 1234" = .error .noTimeAnchor) ∧
    (∀ h p r, findTimeFirst none 0 (cleanText "Cancelado 10:00 voo 1234").data = some (h, p) →
      extract_from_text STATUS_ALVO "Cancelado 10:00 voo 1234" = .ok r → r.horario = h) :=
  C8_amended STATUS_ALVO "Cancelado 10:00 voo 1234" (by decide)
